import Mathlib

/-!
Shallow embedding of the inference-server core request/response pipeline:
the InferenceRequest mutation and normalization operations of
src/core/server.h (which carries the inference request implementation)
and the InferenceResponse::Output buffer operations of the inference
response implementation file, together with proofs about request
normalization, request mutation, and response buffer allocation.

std::map fields are embedded as association lists kept in key order,
so list order coincides with map iteration order. Status objects are
embedded by their status code; messages are not modelled. Pointers are
embedded by value: the inputs map, which in the source holds pointers
into the original and override input maps, here holds copies made at
the points where the source stores the pointers.
-/

/-- Status codes of the Status class (status.h). -/
inductive StatusCode
  | SUCCESS
  | INVALID_ARG
  | NOT_FOUND
  | ALREADY_EXISTS
  | INTERNAL
  deriving DecidableEq, Repr

/-- Tensor datatypes (model_config.proto), restricted to representatives:
fixed-size primitives and the variable-size string type. -/
inductive DataType
  | TYPE_INVALID
  | TYPE_BOOL
  | TYPE_INT32
  | TYPE_INT64
  | TYPE_FP32
  | TYPE_STRING
  deriving DecidableEq, Repr

/-- Memory kinds of TRITONSERVER_Memory_Type. -/
inductive TRITONSERVER_Memory_Type
  | TRITONSERVER_MEMORY_CPU
  | TRITONSERVER_MEMORY_CPU_PINNED
  | TRITONSERVER_MEMORY_GPU
  deriving DecidableEq, Repr

/-- Modelled from the spec: byte size of one element of a fixed-size
datatype (GetDataTypeByteSize of model_config.cc is not in the source
sample); the variable-size string type has no fixed element size. -/
def GetDataTypeByteSize : DataType → Nat
  | .TYPE_BOOL => 1
  | .TYPE_INT32 => 4
  | .TYPE_INT64 => 8
  | .TYPE_FP32 => 4
  | _ => 0

/-- Modelled from the spec: a datatype is fixed-size unless it is the
variable-size byte-string type (IsFixedSizeDataType is not in the source
sample; the spec speaks of fixed-size primitives or variable-size byte
string). -/
def IsFixedSizeDataType (dt : DataType) : Bool :=
  GetDataTypeByteSize dt != 0

/-- Modelled from the spec: byte size of a tensor of a fixed-size
datatype, the element count times the element size; a wildcard
dimension has no byte size (GetByteSize of model_config.cc is not in
the source sample). -/
def GetByteSize (dt : DataType) (shape : List Int) : Int :=
  if shape.any (fun d => d < 0) then -1
  else shape.foldl (fun a d => a * d) 1 * (GetDataTypeByteSize dt : Int)

/-- One input entry of the model configuration (ModelInput of
model_config.proto): declared dims with -1 wildcards, an optional
reshape, and the shape-tensor flag. -/
structure ModelInput where
  name : String
  data_type : DataType
  dims : List Int
  reshape : Option (List Int)
  is_shape_tensor : Bool
  deriving DecidableEq, Repr

/-- The slice of ModelConfig consumed by normalization: max_batch_size,
the input entries, and the output names. -/
structure ModelConfig where
  max_batch_size : Int
  input : List ModelInput
  output : List String
  deriving DecidableEq, Repr

/-- The slice of InferenceBackend consumed by normalization: the model
configuration and the priority bounds. -/
structure InferenceBackend where
  config : ModelConfig
  max_priority_level : Nat
  default_priority_level : Nat
  deriving DecidableEq, Repr

/-- Modelled from the spec: InferenceBackend::GetInput (backend.cc is not
in the source sample) returns the configuration entry of the named input
or fails. -/
def InferenceBackend.GetInput (b : InferenceBackend) (name : String) : Option ModelInput :=
  b.config.input.find? (fun mi => mi.name == name)

/-- Modelled from the spec: InferenceBackend::GetOutput (backend.cc is
not in the source sample) returns the configuration entry of the named
output or fails; only the name is consumed here. -/
def InferenceBackend.GetOutput (b : InferenceBackend) (name : String) : Option String :=
  b.config.output.find? (fun o => o == name)

/-- InferenceRequest::Input: name, datatype, the original shape given by
the caller, the working shape produced by normalization, the
batch-byte-size, and the attached data, embedded by its total byte size
(none embeds a null Memory pointer). -/
structure RequestInput where
  name : String
  datatype : DataType
  original_shape : List Int
  shape : List Int
  batch_byte_size : Int
  data : Option Nat
  deriving DecidableEq, Repr

/-- InferenceRequest::RequestedOutput. -/
structure RequestedOutput where
  name : String
  classification_cnt : Nat
  deriving DecidableEq, Repr

/-- The slice of InferenceRequest consumed by the embedded operations. -/
structure InferenceRequest where
  protocol_version : Nat
  batch_size : Int
  priority : Nat
  original_inputs : List (String × RequestInput)
  override_inputs : List (String × RequestInput)
  inputs : List (String × RequestInput)
  requested_outputs : List (String × RequestedOutput)
  needs_normalization : Bool
  deriving DecidableEq, Repr

/-- Lexicographic comparison of character lists, the order of
std::string keys in a std::map. -/
def listCharLt : List Char → List Char → Bool
  | [], [] => false
  | [], _ :: _ => true
  | _ :: _, [] => false
  | a :: as, b :: bs =>
    if a < b then true else if b < a then false else listCharLt as bs

/-- The strict key order of the embedded std::map. -/
def strLt (a b : String) : Bool := listCharLt a.data b.data

/-- std::map::emplace on a key-ordered association list: inserts at the
key's position and reports whether insertion happened; an existing key
leaves the map unchanged. -/
def mapEmplace {α : Type} (k : String) (v : α) : List (String × α) → List (String × α) × Bool
  | [] => ([(k, v)], true)
  | (k0, v0) :: rest =>
    if strLt k k0 then ((k, v) :: (k0, v0) :: rest, true)
    else if k = k0 then ((k0, v0) :: rest, false)
    else
      let r := mapEmplace k v rest
      ((k0, v0) :: r.1, r.2)

/-- Overwrite the value stored at an existing key. -/
def mapAssign {α : Type} (k : String) (v : α) : List (String × α) → List (String × α)
  | [] => []
  | (k0, v0) :: rest =>
    if k = k0 then (k0, v) :: rest else (k0, v0) :: mapAssign k v rest

/-- std::map::erase by key: the surviving entries and the erased count. -/
def mapErase {α : Type} (k : String) : List (String × α) → List (String × α) × Nat
  | [] => ([], 0)
  | (k0, v0) :: rest =>
    if k = k0 then (rest, 1)
    else
      let r := mapErase k rest
      ((k0, v0) :: r.1, r.2)

/-- std::map::find by key. -/
def mapFind {α : Type} (k : String) : List (String × α) → Option α
  | [] => none
  | (k0, v0) :: rest => if k = k0 then some v0 else mapFind k rest

/-- InferenceRequest::AddOriginalInput (the shape and batch-byte-size
overload): emplace into the original inputs, fail on a duplicate name,
and mark the request for renormalization. -/
def AddOriginalInput (req : InferenceRequest) (name : String) (shape : List Int)
    (batch_byte_size : Int) : StatusCode × InferenceRequest :=
  let pr := mapEmplace name
    { name := name, datatype := DataType.TYPE_INVALID, original_shape := shape,
      shape := [], batch_byte_size := batch_byte_size, data := none } req.original_inputs
  if !pr.2 then (.INVALID_ARG, req)
  else (.SUCCESS, { req with original_inputs := pr.1, needs_normalization := true })

/-- InferenceRequest::RemoveOriginalInput: erase by name, fail when the
name is absent, and mark the request for renormalization. -/
def RemoveOriginalInput (req : InferenceRequest) (name : String) :
    StatusCode × InferenceRequest :=
  let r := mapErase name req.original_inputs
  if r.2 ≠ 1 then (.INVALID_ARG, req)
  else (.SUCCESS, { req with original_inputs := r.1, needs_normalization := true })

/-- InferenceRequest::AddOverrideInput: emplace into the override inputs
and into the inputs map, overwriting the stored entry when the name
already exists; never fails and does not touch needs_normalization. -/
def AddOverrideInput (req : InferenceRequest) (input : RequestInput) :
    StatusCode × InferenceRequest :=
  let pr := mapEmplace input.name input req.override_inputs
  let ov := if pr.2 then pr.1 else mapAssign input.name input req.override_inputs
  let res := mapEmplace input.name input req.inputs
  let inp := if res.2 then res.1 else mapAssign input.name input req.inputs
  (.SUCCESS, { req with override_inputs := ov, inputs := inp })

/-- InferenceRequest::AddRequestedOutput: emplace, fail on a duplicate
name, and mark the request for renormalization. -/
def AddRequestedOutput (req : InferenceRequest) (name : String)
    (classification_cnt : Nat) : StatusCode × InferenceRequest :=
  let pr := mapEmplace name
    { name := name, classification_cnt := classification_cnt } req.requested_outputs
  if !pr.2 then (.INVALID_ARG, req)
  else (.SUCCESS, { req with requested_outputs := pr.1, needs_normalization := true })

/-- Modelled from the spec: CompareDimsWithWildcard (model_config_utils
is not in the source sample) checks invariant I2, an element-wise match
of equal-length shapes where a -1 configuration dim matches anything. -/
def CompareDimsWithWildcard : List Int → List Int → Bool
  | [], [] => true
  | d :: ds, s :: ss => (d == -1 || d == s) && CompareDimsWithWildcard ds ss
  | _, _ => false

/-- The capture half of the reshape rule: the values of the working
shape at the positions where the configuration dims are -1, in index
order (the variable_size_values deque of NormalizeV1/NormalizeV2). -/
def captureWildcards : List Int → List Int → List Int
  | [], _ => []
  | _ :: _, [] => []
  | d :: ds, s :: ss =>
    if d = -1 then s :: captureWildcards ds ss else captureWildcards ds ss

/-- The rewrite half of the reshape rule: reshape.shape with each -1
replaced, in order, by the next captured value (the push-back loop of
NormalizeV1/NormalizeV2). -/
def applyReshape : List Int → List Int → List Int
  | [], _ => []
  | d :: ds, vals =>
    if d = -1 then vals.headD 0 :: applyReshape ds vals.tail
    else d :: applyReshape ds vals

/-- The batch-dimension loop of NormalizeV2 for a batching model: every
input needs a non-empty original shape, the first leading dimension seen
while the running batch size is still 0 becomes the batch size, any
later leading dimension differing from the non-zero running batch size
is rejected, and every working shape becomes the original shape without
its leading dimension. -/
def normalizeBatchLoop (batch_size : Int) :
    List (String × RequestInput) →
    Except StatusCode (Int × List (String × RequestInput))
  | [] => .ok (batch_size, [])
  | (k, input) :: rest =>
    if input.original_shape.length = 0 then .error .INVALID_ARG
    else if batch_size = 0 then
      match normalizeBatchLoop (input.original_shape.headD 0) rest with
      | .error e => .error e
      | .ok (bs, outs) =>
        .ok (bs, (k, { input with shape := input.original_shape.tail }) :: outs)
    else if input.original_shape.headD 0 ≠ batch_size then .error .INVALID_ARG
    else
      match normalizeBatchLoop batch_size rest with
      | .error e => .error e
      | .ok (bs, outs) =>
        .ok (bs, (k, { input with shape := input.original_shape.tail }) :: outs)

/-- The per-input body of the shape-checking loop of NormalizeV2:
resolve the datatype from the configuration, check the working shape
against the configured dims, apply the reshape rule when a reshape is
configured, attach an empty memory reference when no data was given,
and record the data's total byte size as the batch-byte-size. -/
def normalizeV2Input (b : InferenceBackend) (name : String) (input : RequestInput) :
    Except StatusCode RequestInput :=
  match b.GetInput name with
  | none => .error .NOT_FOUND
  | some input_config =>
    let input := { input with datatype := input_config.data_type }
    if ¬ CompareDimsWithWildcard input_config.dims input.shape then .error .INVALID_ARG
    else
      let input :=
        match input_config.reshape with
        | some rshape =>
          { input with
            shape := applyReshape rshape (captureWildcards input_config.dims input.shape) }
        | none => input
      let input :=
        match input.data with
        | none => { input with data := some 0 }
        | some _ => input
      .ok { input with batch_byte_size := ((input.data.getD 0 : Nat) : Int) }

/-- The shape-checking loop of NormalizeV2 over the original inputs. -/
def normalizeV2InputsLoop (b : InferenceBackend) :
    List (String × RequestInput) → Except StatusCode (List (String × RequestInput))
  | [] => .ok []
  | (k, input) :: rest =>
    match normalizeV2Input b k input with
    | .error e => .error e
    | .ok input =>
      match normalizeV2InputsLoop b rest with
      | .error e => .error e
      | .ok outs => .ok ((k, input) :: outs)

/-- The priority fix-up shared by NormalizeV1 and NormalizeV2: a
priority of 0 or above the maximum level becomes the default level. -/
def priorityFix (b : InferenceBackend) (req : InferenceRequest) : InferenceRequest :=
  if req.priority = 0 ∨ req.priority > b.max_priority_level then
    { req with priority := b.default_priority_level }
  else req

/-- InferenceRequest::NormalizeV2: fix up the priority, validate the
requested outputs and the input count, derive the batch size (1 for a
non-batching model, otherwise the common leading dimension, stripped
from every working shape), enforce the batch-size bounds, and run the
per-input shape checks. -/
def NormalizeV2 (b : InferenceBackend) (req0 : InferenceRequest) :
    StatusCode × InferenceRequest :=
  let model_config := b.config
  let req := priorityFix b req0
  if ¬ req.requested_outputs.all (fun pr => (b.GetOutput pr.1).isSome) then
    (.NOT_FOUND, req)
  else if req.original_inputs.length ≠ model_config.input.length then
    (.INVALID_ARG, req)
  else
    match
      (if model_config.max_batch_size = 0 then
        .ok (1, req.original_inputs.map
          (fun pr => (pr.1, { pr.2 with shape := pr.2.original_shape })))
      else normalizeBatchLoop 0 req.original_inputs) with
    | .error e => (e, req)
    | .ok (bs, inputs1) =>
      if bs < 1 then
        (.INVALID_ARG, { req with batch_size := bs, original_inputs := inputs1 })
      else if bs ≠ 1 ∧ bs > model_config.max_batch_size then
        (.INVALID_ARG, { req with batch_size := bs, original_inputs := inputs1 })
      else
        match normalizeV2InputsLoop b inputs1 with
        | .error e => (e, { req with batch_size := bs, original_inputs := inputs1 })
        | .ok inputs2 =>
          (.SUCCESS, { req with batch_size := bs, original_inputs := inputs2 })

/-- The shape resolution of NormalizeV1 for one input: a caller-given
shape is checked against the configured dims and rewritten by the
reshape rule; a missing shape is filled from the reshape shape or the
configured dims, rejecting wildcard dimensions. -/
def resolveV1Shape (input_config : ModelInput) (original_shape : List Int) :
    Except StatusCode (List Int) :=
  let fromDims : Except StatusCode (List Int) :=
    let dims :=
      match input_config.reshape with
      | some r => r
      | none => input_config.dims
    if dims.any (fun d => d < 0) then .error .INVALID_ARG else .ok dims
  if original_shape.length > 0 then
    if ¬ CompareDimsWithWildcard input_config.dims original_shape then .error .INVALID_ARG
    else
      let new_shape :=
        match input_config.reshape with
        | some rshape =>
          applyReshape rshape (captureWildcards input_config.dims original_shape)
        | none => original_shape
      if new_shape.length = 0 then fromDims else .ok new_shape
  else fromDims

/-- The byte-size computation of NormalizeV1 for one input: for a
fixed-size datatype, the tensor byte size times the batch size (shape
tensors ignore the batch size; non-batching models do not multiply),
cross-checked against a non-zero caller-supplied batch-byte-size; a
variable-size datatype keeps the caller-supplied size. -/
def normalizeV1ByteSize (model_config : ModelConfig) (input_config : ModelInput)
    (batch_size : Int) (input : RequestInput) (new_shape : List Int) :
    Except StatusCode Int :=
  if IsFixedSizeDataType input_config.data_type then
    let bs := GetByteSize input_config.data_type new_shape
    let multiplier : Int := if input_config.is_shape_tensor then 1 else batch_size
    let bs :=
      if model_config.max_batch_size > 0 then
        if new_shape.length = 0 then (GetDataTypeByteSize input_config.data_type : Int) * multiplier
        else bs * multiplier
      else bs
    if input.batch_byte_size ≠ 0 ∧ input.batch_byte_size ≠ bs then .error .INVALID_ARG
    else .ok bs
  else .ok input.batch_byte_size

/-- The per-input body of the NormalizeV1 loop. -/
def normalizeV1Input (b : InferenceBackend) (model_config : ModelConfig)
    (batch_size : Int) (name : String) (input : RequestInput) :
    Except StatusCode RequestInput :=
  match b.GetInput name with
  | none => .error .NOT_FOUND
  | some input_config =>
    let input := { input with datatype := input_config.data_type }
    match resolveV1Shape input_config input.original_shape with
    | .error e => .error e
    | .ok new_shape =>
      match normalizeV1ByteSize model_config input_config batch_size input new_shape with
      | .error e => .error e
      | .ok bs => .ok { input with shape := new_shape, batch_byte_size := bs }

/-- The input loop of NormalizeV1. -/
def normalizeV1InputsLoop (b : InferenceBackend) (model_config : ModelConfig)
    (batch_size : Int) :
    List (String × RequestInput) → Except StatusCode (List (String × RequestInput))
  | [] => .ok []
  | (k, input) :: rest =>
    match normalizeV1Input b model_config batch_size k input with
    | .error e => .error e
    | .ok input =>
      match normalizeV1InputsLoop b model_config batch_size rest with
      | .error e => .error e
      | .ok outs => .ok ((k, input) :: outs)

/-- InferenceRequest::NormalizeV1: fix up the priority, enforce the
batch-size bounds on the request-level batch size, validate the
requested outputs and the input count, and update each input's shape,
datatype and batch-byte-size. -/
def NormalizeV1 (b : InferenceBackend) (req0 : InferenceRequest) :
    StatusCode × InferenceRequest :=
  let model_config := b.config
  let req := priorityFix b req0
  if req.batch_size < 1 then (.INVALID_ARG, req)
  else if req.batch_size ≠ 1 ∧ req.batch_size > model_config.max_batch_size then
    (.INVALID_ARG, req)
  else if ¬ req.requested_outputs.all (fun pr => (b.GetOutput pr.1).isSome) then
    (.NOT_FOUND, req)
  else if req.original_inputs.length ≠ model_config.input.length then
    (.INVALID_ARG, req)
  else
    match normalizeV1InputsLoop b model_config req.batch_size req.original_inputs with
    | .error e => (e, req)
    | .ok inputs1 => (.SUCCESS, { req with original_inputs := inputs1 })

/-- The rebuild loop at the end of PrepareForInference: emplace every
original input into the cleared inputs map. -/
def buildInputsMap (original_inputs : List (String × RequestInput)) :
    List (String × RequestInput) :=
  original_inputs.foldl (fun m pr => (mapEmplace pr.1 pr.2 m).1) []

/-- The renormalization block of PrepareForInference: when the request
needs normalization, run the normalization of the active protocol
version and clear the needs_normalization flag on success. -/
def prepareNormalize (b : InferenceBackend) (req : InferenceRequest) :
    StatusCode × InferenceRequest :=
  if req.needs_normalization then
    let n := if req.protocol_version = 1 then NormalizeV1 b req else NormalizeV2 b req
    if n.1 ≠ .SUCCESS then n
    else (.SUCCESS, { n.2 with needs_normalization := false })
  else (.SUCCESS, req)

/-- InferenceRequest::PrepareForInference: clear the inputs map and the
override inputs, renormalize when needed (by protocol version), and
rebuild the inputs map from the original inputs. -/
def PrepareForInference (b : InferenceBackend) (req0 : InferenceRequest) :
    StatusCode × InferenceRequest :=
  let req := { req0 with inputs := [], override_inputs := [] }
  let r := prepareNormalize b req
  if r.1 ≠ .SUCCESS then r
  else (.SUCCESS, { r.2 with inputs := buildInputsMap r.2.original_inputs })

/-- InferenceResponse::Output: name, datatype, shape, and the allocation
record; the allocated buffer and the allocation user pointer are
embedded as numeric handles with 0 for null. -/
structure ResponseOutput where
  name : String
  datatype : DataType
  shape : List Int
  allocated_buffer : Nat
  allocated_buffer_byte_size : Nat
  allocated_memory_type : TRITONSERVER_Memory_Type
  allocated_memory_type_id : Int
  allocated_userp : Nat
  deriving DecidableEq, Repr

/-- The response-allocator callback supplied per inference: given the
output name, the byte size and the preferred memory type and device,
it returns a buffer handle, a user pointer and the actual memory type
and device, or fails. -/
def AllocFn : Type :=
  String → Nat → TRITONSERVER_Memory_Type → Int →
    Option (Nat × Nat × TRITONSERVER_Memory_Type × Int)

/-- InferenceResponse::Output::AllocateBuffer: reject a second
allocation, otherwise call the allocator and record the buffer, the
requested byte size, and the actual memory type and device id, which
are also reported back through the out-parameters (the third component;
none embeds out-parameters left untouched). -/
def ResponseOutput.AllocateBuffer (alloc_fn : AllocFn) (o : ResponseOutput)
    (buffer_byte_size : Nat) (memory_type : TRITONSERVER_Memory_Type)
    (memory_type_id : Int) :
    StatusCode × ResponseOutput × Option (Nat × TRITONSERVER_Memory_Type × Int) :=
  if o.allocated_buffer ≠ 0 then (.ALREADY_EXISTS, o, none)
  else
    match alloc_fn o.name buffer_byte_size memory_type memory_type_id with
    | none => (.INTERNAL, o, none)
    | some (buffer, alloc_buffer_userp, actual_memory_type, actual_memory_type_id) =>
      (.SUCCESS,
        { o with
          allocated_buffer := buffer,
          allocated_buffer_byte_size := buffer_byte_size,
          allocated_memory_type := actual_memory_type,
          allocated_memory_type_id := actual_memory_type_id,
          allocated_userp := alloc_buffer_userp },
        some (buffer, actual_memory_type, actual_memory_type_id))

/-- InferenceResponse::Output::Buffer: report the allocation record. -/
def ResponseOutput.Buffer (o : ResponseOutput) :
    StatusCode × Nat × Nat × TRITONSERVER_Memory_Type × Int :=
  (.SUCCESS, o.allocated_buffer, o.allocated_buffer_byte_size,
    o.allocated_memory_type, o.allocated_memory_type_id)

/-- Specification-level form of the capture half of the reshape rule:
the working-shape values at the wildcard positions of the configured
dims, in index order. -/
def capturedSpec (dims shape : List Int) : List Int :=
  (List.zip dims shape).filterMap (fun p => if p.1 = -1 then some p.2 else none)

/-- The number of wildcard slots in a dims list. -/
def countWildcards (l : List Int) : Nat :=
  (l.filter (fun d => d = -1)).length

/-- Left-biased choice on options, used to state lookup laws. -/
def optOr {α : Type} : Option α → Option α → Option α
  | some v, _ => some v
  | none, y => y

/-- The std::map representation invariant: keys strictly increasing. -/
def mapSorted {α : Type} (m : List (String × α)) : Prop :=
  List.Pairwise (fun a b => strLt a.1 b.1 = true) m

theorem listCharLt_irrefl (l : List Char) : listCharLt l l = false := by
  induction l with
  | nil => rfl
  | cons a as ih => simp [listCharLt, lt_irrefl, ih]

theorem listCharLt_ne {l1 l2 : List Char} (h : listCharLt l1 l2 = true) :
    l1 ≠ l2 := by
  intro he
  rw [he, listCharLt_irrefl] at h
  exact Bool.false_ne_true h

theorem listCharLt_trans : ∀ {l1 l2 l3 : List Char},
    listCharLt l1 l2 = true → listCharLt l2 l3 = true → listCharLt l1 l3 = true := by
  intro l1
  induction l1 with
  | nil =>
    intro l2 l3 h1 h2
    cases l2 with
    | nil => simp [listCharLt] at h1
    | cons b bs =>
      cases l3 with
      | nil => simp [listCharLt] at h2
      | cons c cs => rfl
  | cons a as ih =>
    intro l2 l3 h1 h2
    cases l2 with
    | nil => simp [listCharLt] at h1
    | cons b bs =>
      cases l3 with
      | nil => simp [listCharLt] at h2
      | cons c cs =>
        by_cases hab : a < b
        · by_cases hbc : b < c
          · simp [listCharLt, lt_trans hab hbc]
          · by_cases hcb : c < b
            · simp [listCharLt, hbc, hcb] at h2
            · have hbc' : b = c := le_antisymm (not_lt.mp hcb) (not_lt.mp hbc)
              simp [listCharLt, hbc' ▸ hab]
        · by_cases hba : b < a
          · simp [listCharLt, hab, hba] at h1
          · have hab' : a = b := le_antisymm (not_lt.mp hba) (not_lt.mp hab)
            subst hab'
            simp only [listCharLt, if_neg (lt_irrefl a)] at h1
            by_cases hbc : a < c
            · simp [listCharLt, hbc]
            · by_cases hcb : c < a
              · simp [listCharLt, hbc, hcb] at h2
              · simp only [listCharLt, if_neg hbc, if_neg hcb] at h2 ⊢
                exact ih h1 h2

theorem listCharLt_total : ∀ {l1 l2 : List Char},
    listCharLt l1 l2 = false → l1 ≠ l2 → listCharLt l2 l1 = true := by
  intro l1
  induction l1 with
  | nil =>
    intro l2 h1 h2
    cases l2 with
    | nil => exact absurd rfl h2
    | cons b bs => simp [listCharLt] at h1
  | cons a as ih =>
    intro l2 h1 h2
    cases l2 with
    | nil => rfl
    | cons b bs =>
      by_cases hab : a < b
      · simp [listCharLt, hab] at h1
      · by_cases hba : b < a
        · simp [listCharLt, hba]
        · have hab' : a = b := le_antisymm (not_lt.mp hba) (not_lt.mp hab)
          subst hab'
          simp only [listCharLt, if_neg (lt_irrefl a)] at h1 ⊢
          refine ih h1 ?_
          intro he
          exact h2 (he ▸ rfl)

theorem strLt_irrefl (a : String) : strLt a a = false :=
  listCharLt_irrefl a.data

theorem strLt_ne {a b : String} (h : strLt a b = true) : a ≠ b := by
  intro he
  rw [he, strLt_irrefl] at h
  exact Bool.false_ne_true h

theorem strLt_trans {a b c : String} (h1 : strLt a b = true)
    (h2 : strLt b c = true) : strLt a c = true :=
  listCharLt_trans h1 h2

theorem strLt_total {a b : String} (h1 : ¬ strLt a b = true) (h2 : ¬ a = b) :
    strLt b a = true := by
  refine listCharLt_total (Bool.not_eq_true _ ▸ h1) ?_
  intro he
  apply h2
  obtain ⟨la⟩ := a
  obtain ⟨lb⟩ := b
  exact congrArg String.mk (by simpa using he)

theorem mapFind_none_of_forall_lt {α : Type} (k : String) (m : List (String × α))
    (h : ∀ p ∈ m, strLt k p.1 = true) : mapFind k m = none := by
  induction m with
  | nil => rfl
  | cons p rest ih =>
    obtain ⟨k0, v0⟩ := p
    simp only [mapFind]
    rw [if_neg (strLt_ne (h (k0, v0) (List.mem_cons_self _ _)))]
    exact ih (fun q hq => h q (List.mem_cons_of_mem _ hq))

theorem mapEmplace_false_of_find_some {α : Type} {k : String} {v w : α}
    {m : List (String × α)} (hs : mapSorted m) (h : mapFind k m = some w) :
    mapEmplace k v m = (m, false) := by
  induction m with
  | nil => simp [mapFind] at h
  | cons p rest ih =>
    obtain ⟨k0, v0⟩ := p
    obtain ⟨hhead, htail⟩ := List.pairwise_cons.mp hs
    simp only [mapFind] at h
    by_cases hk : k = k0
    · simp [mapEmplace, hk, strLt_irrefl]
    · rw [if_neg hk] at h
      have hlt : ¬ strLt k k0 = true := by
        intro hlt
        rw [mapFind_none_of_forall_lt k rest
          (fun q hq => strLt_trans hlt (hhead q hq))] at h
        exact Option.noConfusion h
      have := ih htail h
      simp [mapEmplace, hlt, hk, this]

theorem mapEmplace_true_of_find_none {α : Type} {k : String} {v : α}
    {m : List (String × α)} (h : mapFind k m = none) :
    (mapEmplace k v m).2 = true := by
  induction m with
  | nil => rfl
  | cons p rest ih =>
    obtain ⟨k0, v0⟩ := p
    simp only [mapFind] at h
    by_cases hlt : strLt k k0 = true
    · simp [mapEmplace, hlt]
    · by_cases hk : k = k0
      · rw [if_pos hk] at h; exact Option.noConfusion h
      · rw [if_neg hk] at h
        simp [mapEmplace, hlt, hk, ih h]

theorem mapErase_mapEmplace_of_find_none {α : Type} {k : String} {v : α}
    {m : List (String × α)} (h : mapFind k m = none) :
    mapErase k (mapEmplace k v m).1 = (m, 1) := by
  induction m with
  | nil => simp [mapEmplace, mapErase]
  | cons p rest ih =>
    obtain ⟨k0, v0⟩ := p
    simp only [mapFind] at h
    by_cases hlt : strLt k k0 = true
    · simp [mapEmplace, hlt, mapErase]
    · by_cases hk : k = k0
      · rw [if_pos hk] at h; exact Option.noConfusion h
      · rw [if_neg hk] at h
        simp [mapEmplace, hlt, hk, mapErase, ih h]

theorem mapFind_mapEmplace_of_true {α : Type} {k : String} {v : α}
    {m : List (String × α)} (h2 : (mapEmplace k v m).2 = true) :
    mapFind k (mapEmplace k v m).1 = some v := by
  induction m with
  | nil => simp [mapEmplace, mapFind]
  | cons p rest ih =>
    obtain ⟨k0, v0⟩ := p
    by_cases hlt : strLt k k0 = true
    · simp [mapEmplace, hlt, mapFind]
    · by_cases hk : k = k0
      · simp [mapEmplace, hlt, hk, strLt_irrefl] at h2
      · simp only [mapEmplace, if_neg hlt, if_neg hk] at h2 ⊢
        simp only [mapFind, if_neg hk]
        exact ih h2

theorem mapFind_mapAssign_of_false {α : Type} {k : String} {v : α}
    {m : List (String × α)} (h2 : (mapEmplace k v m).2 = false) :
    mapFind k (mapAssign k v m) = some v := by
  induction m with
  | nil => simp [mapEmplace] at h2
  | cons p rest ih =>
    obtain ⟨k0, v0⟩ := p
    by_cases hlt : strLt k k0 = true
    · simp [mapEmplace, hlt] at h2
    · by_cases hk : k = k0
      · simp [mapAssign, hk, mapFind]
      · simp only [mapEmplace, if_neg hlt, if_neg hk] at h2
        simp only [mapAssign, if_neg hk, mapFind]
        exact ih h2

theorem mem_mapEmplace {α : Type} {k : String} {v : α} {m : List (String × α)}
    {q : String × α} (hq : q ∈ (mapEmplace k v m).1) : q = (k, v) ∨ q ∈ m := by
  induction m with
  | nil =>
    simp only [mapEmplace, List.mem_singleton] at hq
    exact Or.inl hq
  | cons p rest ih =>
    obtain ⟨k0, v0⟩ := p
    by_cases hlt : strLt k k0 = true
    · simp only [mapEmplace, if_pos hlt, List.mem_cons] at hq
      rcases hq with h | h | h
      · exact Or.inl h
      · exact Or.inr (by simp [h])
      · exact Or.inr (List.mem_cons_of_mem _ h)
    · by_cases hk : k = k0
      · simp only [mapEmplace, if_neg hlt, if_pos hk] at hq
        exact Or.inr hq
      · simp only [mapEmplace, if_neg hlt, if_neg hk, List.mem_cons] at hq
        rcases hq with h | h
        · exact Or.inr (by simp [h])
        · rcases ih h with h' | h'
          · exact Or.inl h'
          · exact Or.inr (List.mem_cons_of_mem _ h')

theorem mapEmplace_sorted {α : Type} {k : String} {v : α} {m : List (String × α)}
    (hs : mapSorted m) : mapSorted (mapEmplace k v m).1 := by
  induction m with
  | nil => simp [mapEmplace, mapSorted]
  | cons p rest ih =>
    obtain ⟨k0, v0⟩ := p
    obtain ⟨hhead, htail⟩ := List.pairwise_cons.mp hs
    by_cases hlt : strLt k k0 = true
    · simp only [mapEmplace, if_pos hlt]
      refine List.pairwise_cons.mpr ⟨?_, hs⟩
      intro q hq
      rcases List.mem_cons.mp hq with h | h
      · simpa [h] using hlt
      · exact strLt_trans hlt (hhead q h)
    · by_cases hk : k = k0
      · simpa [mapEmplace, hlt, hk, strLt_irrefl] using hs
      · simp only [mapEmplace, if_neg hlt, if_neg hk]
        refine List.pairwise_cons.mpr ⟨?_, ih htail⟩
        intro q hq
        rcases mem_mapEmplace hq with h | h
        · have hk0 : strLt k0 k = true := strLt_total hlt hk
          simpa [h] using hk0
        · exact hhead q h

theorem mapEmplace_cons_lt {α : Type} {k k0 : String} {v v0 : α}
    {rest : List (String × α)} (h : strLt k k0 = true) :
    mapEmplace k v ((k0, v0) :: rest) = ((k, v) :: (k0, v0) :: rest, true) := by
  simp only [mapEmplace]
  rw [if_pos h]

theorem mapEmplace_cons_eq {α : Type} {k k0 : String} {v v0 : α}
    {rest : List (String × α)} (h : k = k0) :
    mapEmplace k v ((k0, v0) :: rest) = ((k0, v0) :: rest, false) := by
  simp only [mapEmplace]
  rw [if_neg (by rw [h, strLt_irrefl]; exact Bool.false_ne_true), if_pos h]

theorem mapEmplace_cons_gt {α : Type} {k k0 : String} {v v0 : α}
    {rest : List (String × α)} (h1 : ¬ strLt k k0 = true) (h2 : ¬ k = k0) :
    mapEmplace k v ((k0, v0) :: rest)
      = ((k0, v0) :: (mapEmplace k v rest).1, (mapEmplace k v rest).2) := by
  simp only [mapEmplace]
  rw [if_neg h1, if_neg h2]

theorem mapFind_cons {α : Type} (k k0 : String) (v0 : α)
    (rest : List (String × α)) :
    mapFind k ((k0, v0) :: rest) = if k = k0 then some v0 else mapFind k rest := rfl

theorem mapFind_mapEmplace_sorted {α : Type} {k1 k2 : String} {v : α}
    {m : List (String × α)} (hs : mapSorted m) :
    mapFind k1 (mapEmplace k2 v m).1
      = if k1 = k2 then optOr (mapFind k2 m) (some v) else mapFind k1 m := by
  induction m with
  | nil =>
    by_cases hk : k1 = k2
    · rw [if_pos hk, hk]
      simp [mapEmplace, mapFind, optOr]
    · rw [if_neg hk]
      simp only [mapEmplace, mapFind]
      rw [if_neg hk]
  | cons p rest ih =>
    obtain ⟨k0, v0⟩ := p
    obtain ⟨hhead, htail⟩ := List.pairwise_cons.mp hs
    by_cases hlt : strLt k2 k0 = true
    · have hfind : mapFind k2 rest = none :=
        mapFind_none_of_forall_lt k2 rest (fun q hq => strLt_trans hlt (hhead q hq))
      have hne : k2 ≠ k0 := strLt_ne hlt
      rw [mapEmplace_cons_lt hlt]
      by_cases hk : k1 = k2
      · rw [if_pos hk, mapFind_cons, if_pos hk, mapFind_cons, if_neg hne, hfind]
        rfl
      · rw [if_neg hk, mapFind_cons, if_neg hk]
    · by_cases hk2 : k2 = k0
      · rw [mapEmplace_cons_eq hk2]
        by_cases hk : k1 = k2
        · rw [if_pos hk, mapFind_cons, if_pos (hk.trans hk2), mapFind_cons,
            if_pos hk2]
          rfl
        · rw [if_neg hk]
      · rw [mapEmplace_cons_gt hlt hk2]
        by_cases hk10 : k1 = k0
        · have hk1ne : ¬ k1 = k2 := fun h => hk2 (h.symm.trans hk10)
          rw [if_neg hk1ne, mapFind_cons, if_pos hk10, mapFind_cons, if_pos hk10]
        · rw [mapFind_cons, if_neg hk10, ih htail]
          by_cases hk : k1 = k2
          · rw [if_pos hk, if_pos hk, mapFind_cons, if_neg hk2]
          · rw [if_neg hk, if_neg hk, mapFind_cons, if_neg hk10]

theorem mapFind_foldl_emplace {α : Type} (k : String) (l : List (String × α)) :
    ∀ acc, mapSorted acc →
      mapFind k (l.foldl (fun m pr => (mapEmplace pr.1 pr.2 m).1) acc)
        = optOr (mapFind k acc) (mapFind k l) := by
  induction l with
  | nil =>
    intro acc _
    cases h : mapFind k acc <;> simp [mapFind, optOr, h]
  | cons p tl ih =>
    intro acc hs
    obtain ⟨k0, v0⟩ := p
    rw [List.foldl_cons, ih _ (mapEmplace_sorted hs), mapFind_mapEmplace_sorted hs]
    by_cases hk : k = k0
    · simp only [mapFind, if_pos hk, if_pos rfl]
      cases h : mapFind k0 acc <;> simp [optOr, hk, h]
    · simp [mapFind, hk]

theorem mapFind_buildInputsMap (k : String) (l : List (String × RequestInput)) :
    mapFind k (buildInputsMap l) = mapFind k l := by
  have := mapFind_foldl_emplace k l [] (by simp [mapSorted])
  simpa [buildInputsMap, mapFind, optOr] using this

/-- C7: allocating a response buffer twice for the same output fails
with ALREADY_EXISTS and leaves the previously allocated buffer, its
byte size, memory type and device id unchanged. -/
theorem allocate_buffer_duplicate (alloc_fn : AllocFn) (o : ResponseOutput)
    (buffer_byte_size : Nat) (memory_type : TRITONSERVER_Memory_Type)
    (memory_type_id : Int) (h : o.allocated_buffer ≠ 0) :
    o.AllocateBuffer alloc_fn buffer_byte_size memory_type memory_type_id
      = (.ALREADY_EXISTS, o, none) := by
  simp [ResponseOutput.AllocateBuffer, h]

theorem allocate_buffer_duplicate_witness :
    ResponseOutput.AllocateBuffer (fun _ _ _ _ => none)
      { name := "OUTPUT0", datatype := .TYPE_FP32, shape := [1],
        allocated_buffer := 7, allocated_buffer_byte_size := 4,
        allocated_memory_type := .TRITONSERVER_MEMORY_GPU,
        allocated_memory_type_id := 1, allocated_userp := 3 }
      8 .TRITONSERVER_MEMORY_CPU 0
      = (.ALREADY_EXISTS,
        { name := "OUTPUT0", datatype := .TYPE_FP32, shape := [1],
          allocated_buffer := 7, allocated_buffer_byte_size := 4,
          allocated_memory_type := .TRITONSERVER_MEMORY_GPU,
          allocated_memory_type_id := 1, allocated_userp := 3 }, none) :=
  allocate_buffer_duplicate _ _ _ _ _ (by decide)

/-- C8: when the allocator returns an actual memory type or device id
differing from the requested ones, AllocateBuffer records the actual
values in the output, reports them through its out-parameters, and a
subsequent Buffer query reports the same actual values. -/
theorem allocate_buffer_actual_memory (alloc_fn : AllocFn) (o : ResponseOutput)
    (buffer_byte_size : Nat) (memory_type actual_mt : TRITONSERVER_Memory_Type)
    (memory_type_id actual_id : Int) (buf userp : Nat)
    (h0 : o.allocated_buffer = 0)
    (halloc : alloc_fn o.name buffer_byte_size memory_type memory_type_id
      = some (buf, userp, actual_mt, actual_id)) :
    (o.AllocateBuffer alloc_fn buffer_byte_size memory_type memory_type_id).1
        = .SUCCESS ∧
    (o.AllocateBuffer alloc_fn buffer_byte_size memory_type
        memory_type_id).2.1.allocated_memory_type = actual_mt ∧
    (o.AllocateBuffer alloc_fn buffer_byte_size memory_type
        memory_type_id).2.1.allocated_memory_type_id = actual_id ∧
    (o.AllocateBuffer alloc_fn buffer_byte_size memory_type
        memory_type_id).2.2 = some (buf, actual_mt, actual_id) ∧
    (o.AllocateBuffer alloc_fn buffer_byte_size memory_type
        memory_type_id).2.1.Buffer
      = (.SUCCESS, buf, buffer_byte_size, actual_mt, actual_id) := by
  simp [ResponseOutput.AllocateBuffer, h0, halloc, ResponseOutput.Buffer]

theorem allocate_buffer_actual_memory_witness :
    ((ResponseOutput.AllocateBuffer
        (fun _ _ _ _ => some (1000, 5, .TRITONSERVER_MEMORY_CPU, 0))
        { name := "OUTPUT0", datatype := .TYPE_FP32, shape := [1],
          allocated_buffer := 0, allocated_buffer_byte_size := 0,
          allocated_memory_type := .TRITONSERVER_MEMORY_CPU,
          allocated_memory_type_id := 0, allocated_userp := 0 }
        16 .TRITONSERVER_MEMORY_GPU 2).1 = .SUCCESS) ∧
    ((ResponseOutput.AllocateBuffer
        (fun _ _ _ _ => some (1000, 5, .TRITONSERVER_MEMORY_CPU, 0))
        { name := "OUTPUT0", datatype := .TYPE_FP32, shape := [1],
          allocated_buffer := 0, allocated_buffer_byte_size := 0,
          allocated_memory_type := .TRITONSERVER_MEMORY_CPU,
          allocated_memory_type_id := 0, allocated_userp := 0 }
        16 .TRITONSERVER_MEMORY_GPU 2).2.1.allocated_memory_type
      = .TRITONSERVER_MEMORY_CPU) := by
  have h := allocate_buffer_actual_memory
    (fun _ _ _ _ => some (1000, 5, .TRITONSERVER_MEMORY_CPU, 0))
    { name := "OUTPUT0", datatype := .TYPE_FP32, shape := [1],
      allocated_buffer := 0, allocated_buffer_byte_size := 0,
      allocated_memory_type := .TRITONSERVER_MEMORY_CPU,
      allocated_memory_type_id := 0, allocated_userp := 0 }
    16 .TRITONSERVER_MEMORY_GPU .TRITONSERVER_MEMORY_CPU 2 0 1000 5 rfl rfl
  exact ⟨h.1, h.2.1⟩

/-- C9 (amended): when the name is not already an original input,
AddOriginalInput followed by RemoveOriginalInput restores the original
inputs exactly and leaves needs_normalization set. -/
theorem add_remove_original_input (req : InferenceRequest) (name : String)
    (shape : List Int) (batch_byte_size : Int)
    (h : mapFind name req.original_inputs = none) :
    (AddOriginalInput req name shape batch_byte_size).1 = .SUCCESS ∧
    (RemoveOriginalInput (AddOriginalInput req name shape batch_byte_size).2
        name).1 = .SUCCESS ∧
    (RemoveOriginalInput (AddOriginalInput req name shape batch_byte_size).2
        name).2.original_inputs = req.original_inputs ∧
    (RemoveOriginalInput (AddOriginalInput req name shape batch_byte_size).2
        name).2.needs_normalization = true := by
  simp only [AddOriginalInput]
  rw [mapEmplace_true_of_find_none h]
  simp only [Bool.not_true, Bool.false_eq_true, if_false, RemoveOriginalInput]
  rw [mapErase_mapEmplace_of_find_none h]
  simp

theorem add_remove_original_input_witness :
    (AddOriginalInput
      { protocol_version := 2, batch_size := 0, priority := 0,
        original_inputs := [], override_inputs := [], inputs := [],
        requested_outputs := [], needs_normalization := false }
      "INPUT0" [2, 3] 0).1 = .SUCCESS ∧
    (RemoveOriginalInput (AddOriginalInput
      { protocol_version := 2, batch_size := 0, priority := 0,
        original_inputs := [], override_inputs := [], inputs := [],
        requested_outputs := [], needs_normalization := false }
      "INPUT0" [2, 3] 0).2 "INPUT0").1 = .SUCCESS ∧
    (RemoveOriginalInput (AddOriginalInput
      { protocol_version := 2, batch_size := 0, priority := 0,
        original_inputs := [], override_inputs := [], inputs := [],
        requested_outputs := [], needs_normalization := false }
      "INPUT0" [2, 3] 0).2 "INPUT0").2.original_inputs = [] ∧
    (RemoveOriginalInput (AddOriginalInput
      { protocol_version := 2, batch_size := 0, priority := 0,
        original_inputs := [], override_inputs := [], inputs := [],
        requested_outputs := [], needs_normalization := false }
      "INPUT0" [2, 3] 0).2 "INPUT0").2.needs_normalization = true :=
  add_remove_original_input _ "INPUT0" [2, 3] 0 rfl

/-- A request that already carries an original input named X, on which
the add-then-remove round trip of C9 deletes the pre-existing input. -/
def dupInputRequest : InferenceRequest :=
  { protocol_version := 2, batch_size := 0, priority := 0,
    original_inputs := [("X",
      { name := "X", datatype := .TYPE_INVALID, original_shape := [1],
        shape := [], batch_byte_size := 0, data := none })],
    override_inputs := [], inputs := [], requested_outputs := [],
    needs_normalization := false }

theorem add_remove_original_input_cex :
    (AddOriginalInput dupInputRequest "X" [2] 0).1 = .INVALID_ARG ∧
    (RemoveOriginalInput (AddOriginalInput dupInputRequest "X" [2] 0).2
        "X").2.original_inputs ≠ dupInputRequest.original_inputs := by
  decide

theorem mapFind_emplace_or_assign {α : Type} (k : String) (v : α)
    (m : List (String × α)) :
    mapFind k (if (mapEmplace k v m).2 then (mapEmplace k v m).1
      else mapAssign k v m) = some v := by
  by_cases hb : (mapEmplace k v m).2 = true
  · simp only [hb, if_true]
    exact mapFind_mapEmplace_of_true hb
  · simp only [hb, if_false]
    exact mapFind_mapAssign_of_false (Bool.not_eq_true _ ▸ hb)

/-- C10: AddOverrideInput always succeeds, replaces the entry of the
same name in both the override-inputs map and the inputs map, and does
not touch needs_normalization, whereas AddOriginalInput and
AddRequestedOutput return INVALID_ARG and leave the request unchanged
when the name already exists. -/
theorem add_override_input_duplicate :
    (∀ (req : InferenceRequest) (input : RequestInput),
      (AddOverrideInput req input).1 = .SUCCESS ∧
      (AddOverrideInput req input).2.needs_normalization
        = req.needs_normalization ∧
      mapFind input.name (AddOverrideInput req input).2.override_inputs
        = some input ∧
      mapFind input.name (AddOverrideInput req input).2.inputs = some input) ∧
    (∀ (req : InferenceRequest) (name : String) (shape : List Int)
        (batch_byte_size : Int) (w : RequestInput),
      mapSorted req.original_inputs → mapFind name req.original_inputs = some w →
      AddOriginalInput req name shape batch_byte_size = (.INVALID_ARG, req)) ∧
    (∀ (req : InferenceRequest) (name : String) (classification_cnt : Nat)
        (w : RequestedOutput),
      mapSorted req.requested_outputs →
      mapFind name req.requested_outputs = some w →
      AddRequestedOutput req name classification_cnt = (.INVALID_ARG, req)) := by
  refine ⟨fun req input => ?_, fun req name shape bbs w hs h => ?_,
    fun req name cnt w hs h => ?_⟩
  · refine ⟨rfl, rfl, ?_, ?_⟩
    · simp only [AddOverrideInput]
      exact mapFind_emplace_or_assign _ _ _
    · simp only [AddOverrideInput]
      exact mapFind_emplace_or_assign _ _ _
  · simp only [AddOriginalInput]
    rw [mapEmplace_false_of_find_some hs h]
    simp
  · simp only [AddRequestedOutput]
    rw [mapEmplace_false_of_find_some hs h]
    simp

theorem priorityFix_original_inputs (b : InferenceBackend) (req : InferenceRequest) :
    (priorityFix b req).original_inputs = req.original_inputs := by
  unfold priorityFix
  split <;> rfl

theorem priorityFix_override_inputs (b : InferenceBackend) (req : InferenceRequest) :
    (priorityFix b req).override_inputs = req.override_inputs := by
  unfold priorityFix
  split <;> rfl

theorem priorityFix_inputs (b : InferenceBackend) (req : InferenceRequest) :
    (priorityFix b req).inputs = req.inputs := by
  unfold priorityFix
  split <;> rfl

theorem priorityFix_needs_normalization (b : InferenceBackend) (req : InferenceRequest) :
    (priorityFix b req).needs_normalization = req.needs_normalization := by
  unfold priorityFix
  split <;> rfl

theorem priorityFix_requested_outputs (b : InferenceBackend) (req : InferenceRequest) :
    (priorityFix b req).requested_outputs = req.requested_outputs := by
  unfold priorityFix
  split <;> rfl

theorem priorityFix_batch_size (b : InferenceBackend) (req : InferenceRequest) :
    (priorityFix b req).batch_size = req.batch_size := by
  unfold priorityFix
  split <;> rfl

theorem normalizeV2_state (b : InferenceBackend) (req : InferenceRequest) :
    (NormalizeV2 b req).2.override_inputs = req.override_inputs ∧
    (NormalizeV2 b req).2.inputs = req.inputs ∧
    (NormalizeV2 b req).2.needs_normalization = req.needs_normalization := by
  simp only [NormalizeV2]
  repeat' split
  all_goals simp [priorityFix_override_inputs, priorityFix_inputs,
    priorityFix_needs_normalization]

theorem normalizeV1_state (b : InferenceBackend) (req : InferenceRequest) :
    (NormalizeV1 b req).2.override_inputs = req.override_inputs ∧
    (NormalizeV1 b req).2.inputs = req.inputs ∧
    (NormalizeV1 b req).2.needs_normalization = req.needs_normalization := by
  simp only [NormalizeV1]
  repeat' split
  all_goals simp [priorityFix_override_inputs, priorityFix_inputs,
    priorityFix_needs_normalization]

theorem prepareNormalize_success_needs {b : InferenceBackend}
    {req r : InferenceRequest} (h : prepareNormalize b req = (.SUCCESS, r)) :
    r.needs_normalization = false := by
  simp only [prepareNormalize] at h
  split at h
  · split at h <;> split at h <;>
      first
        | (rename_i hne
           rw [h] at hne
           simp at hne)
        | (rw [Prod.mk.injEq] at h
           rw [← h.2])
  · rename_i hfalse
    rw [Prod.mk.injEq] at h
    rw [← h.2]
    simpa using hfalse

theorem prepareNormalize_success_override {b : InferenceBackend}
    {req r : InferenceRequest} (h : prepareNormalize b req = (.SUCCESS, r)) :
    r.override_inputs = req.override_inputs := by
  simp only [prepareNormalize] at h
  split at h
  · split at h <;> split at h <;>
      first
        | (rename_i hne
           rw [h] at hne
           simp at hne)
        | (rw [Prod.mk.injEq] at h
           rw [← h.2]
           first
             | exact (normalizeV1_state b _).1
             | exact (normalizeV2_state b _).1)
  · rw [Prod.mk.injEq] at h
    rw [← h.2]

theorem prepare_success_state {b : InferenceBackend} {req req1 : InferenceRequest}
    (h : PrepareForInference b req = (.SUCCESS, req1)) :
    req1.needs_normalization = false ∧ req1.override_inputs = [] ∧
    req1.inputs = buildInputsMap req1.original_inputs := by
  rcases hP : prepareNormalize b { req with inputs := [], override_inputs := [] }
    with ⟨c, r⟩
  simp only [PrepareForInference, hP] at h
  by_cases hc : c = StatusCode.SUCCESS
  · subst hc
    simp only [ne_eq, not_true_eq_false, if_false, Prod.mk.injEq, true_and] at h
    subst h
    refine ⟨?_, ?_, rfl⟩
    · show r.needs_normalization = false
      exact prepareNormalize_success_needs hP
    · show r.override_inputs = []
      exact prepareNormalize_success_override hP
  · rw [if_pos (by simpa using hc)] at h
    exact absurd (congrArg Prod.fst h) (by simpa using hc)

/-- C5: PrepareForInference is idempotent — after a successful call, a
second call without intervening mutation succeeds and returns the
identical normalized request state. -/
theorem prepare_idempotent (b : InferenceBackend) (req req1 : InferenceRequest)
    (h : PrepareForInference b req = (.SUCCESS, req1)) :
    PrepareForInference b req1 = (.SUCCESS, req1) := by
  obtain ⟨hn, hov, hin⟩ := prepare_success_state h
  cases req1 with
  | mk pv bs pr oi ov inp ro nn =>
    simp only at hn hov hin
    subst hn
    subst hov
    subst hin
    simp [PrepareForInference, prepareNormalize]

/-- The backend of the concrete witness requests: a non-batching model
with one INT32 input of dims 2 and no reshape. -/
def witnessBackend : InferenceBackend :=
  { config := { max_batch_size := 0,
                input := [{ name := "INPUT0", data_type := .TYPE_INT32, dims := [2],
                            reshape := none, is_shape_tensor := false }],
                output := [] },
    max_priority_level := 0, default_priority_level := 0 }

/-- A fresh request carrying one original input INPUT0 of shape 2. -/
def witnessRequest : InferenceRequest :=
  { protocol_version := 2, batch_size := 0, priority := 0,
    original_inputs := [("INPUT0",
      { name := "INPUT0", datatype := .TYPE_INVALID, original_shape := [2],
        shape := [], batch_byte_size := 0, data := none })],
    override_inputs := [], inputs := [], requested_outputs := [],
    needs_normalization := true }

/-- The state of the witness request after a successful Prepare. -/
def witnessPrepared : InferenceRequest :=
  { protocol_version := 2, batch_size := 1, priority := 0,
    original_inputs := [("INPUT0",
      { name := "INPUT0", datatype := .TYPE_INT32, original_shape := [2],
        shape := [2], batch_byte_size := 0, data := some 0 })],
    override_inputs := [],
    inputs := [("INPUT0",
      { name := "INPUT0", datatype := .TYPE_INT32, original_shape := [2],
        shape := [2], batch_byte_size := 0, data := some 0 })],
    requested_outputs := [], needs_normalization := false }

theorem prepare_idempotent_witness :
    PrepareForInference witnessBackend witnessPrepared
      = (.SUCCESS, witnessPrepared) :=
  prepare_idempotent witnessBackend witnessRequest witnessPrepared (by decide)

/-- C6 (amended): a successful Prepare clears the override inputs and
rebuilds the inputs map from the original inputs alone; an override
input added afterwards through AddOverrideInput appears in both the
override-inputs map and the inputs map. -/
theorem prepare_rebuilds_inputs (b : InferenceBackend) (req req1 : InferenceRequest)
    (h : PrepareForInference b req = (.SUCCESS, req1)) :
    req1.override_inputs = [] ∧
    (∀ k, mapFind k req1.inputs = mapFind k req1.original_inputs) ∧
    (∀ input : RequestInput,
      mapFind input.name (AddOverrideInput req1 input).2.override_inputs
        = some input ∧
      mapFind input.name (AddOverrideInput req1 input).2.inputs = some input) := by
  obtain ⟨hn, hov, hin⟩ := prepare_success_state h
  refine ⟨hov, ?_, ?_⟩
  · intro k
    rw [hin, mapFind_buildInputsMap]
  · intro input
    constructor
    · simp only [AddOverrideInput]
      exact mapFind_emplace_or_assign _ _ _
    · simp only [AddOverrideInput]
      exact mapFind_emplace_or_assign _ _ _

/-- An override input added after the witness request was prepared. -/
def freshOverrideInput : RequestInput :=
  { name := "OVR", datatype := .TYPE_FP32, original_shape := [1], shape := [1],
    batch_byte_size := 4, data := none }

theorem prepare_rebuilds_inputs_witness :
    witnessPrepared.override_inputs = [] ∧
    mapFind "INPUT0" witnessPrepared.inputs
      = mapFind "INPUT0" witnessPrepared.original_inputs ∧
    mapFind "OVR" (AddOverrideInput witnessPrepared freshOverrideInput).2.inputs
      = some freshOverrideInput := by
  have h := prepare_rebuilds_inputs witnessBackend witnessRequest witnessPrepared
    (by decide)
  exact ⟨h.1, h.2.1 "INPUT0", (h.2.2 freshOverrideInput).2⟩

/-- An override input as AddOverrideInput records it before Prepare. -/
def staleOverrideInput : RequestInput :=
  { name := "B", datatype := .TYPE_FP32, original_shape := [1], shape := [1],
    batch_byte_size := 4, data := none }

/-- A request that already carries the override input B (in both the
override-inputs map and the inputs map) when Prepare is called. -/
def staleOverrideRequest : InferenceRequest :=
  { protocol_version := 2, batch_size := 0, priority := 0,
    original_inputs := [("A",
      { name := "A", datatype := .TYPE_INVALID, original_shape := [2],
        shape := [], batch_byte_size := 0, data := none })],
    override_inputs := [("B", staleOverrideInput)],
    inputs := [("A",
      { name := "A", datatype := .TYPE_INVALID, original_shape := [2],
        shape := [], batch_byte_size := 0, data := none }),
      ("B", staleOverrideInput)],
    requested_outputs := [], needs_normalization := true }

/-- The backend for the stale-override request. -/
def staleOverrideBackend : InferenceBackend :=
  { config := { max_batch_size := 0,
                input := [{ name := "A", data_type := .TYPE_INT32, dims := [2],
                            reshape := none, is_shape_tensor := false }],
                output := [] },
    max_priority_level := 0, default_priority_level := 0 }

theorem prepare_rebuilds_inputs_cex :
    (PrepareForInference staleOverrideBackend staleOverrideRequest).1
      = .SUCCESS ∧
    mapFind "B" staleOverrideRequest.override_inputs = some staleOverrideInput ∧
    mapFind "B"
      (PrepareForInference staleOverrideBackend staleOverrideRequest).2.inputs
      = none ∧
    (PrepareForInference staleOverrideBackend
      staleOverrideRequest).2.override_inputs = [] := by
  decide

/-- The shape rewrite performed by the batch-dimension loop: every
working shape becomes the original shape without its leading dim. -/
def stripBatchDim (l : List (String × RequestInput)) : List (String × RequestInput) :=
  l.map (fun p => (p.1, { p.2 with shape := p.2.original_shape.tail }))

theorem normalizeBatchLoop_error_of_empty :
    ∀ {l : List (String × RequestInput)} (bs : Int),
      (∃ p ∈ l, p.2.original_shape = []) →
      normalizeBatchLoop bs l = .error .INVALID_ARG := by
  intro l
  induction l with
  | nil =>
    intro bs h
    obtain ⟨p, hp, -⟩ := h
    exact absurd hp (List.not_mem_nil p)
  | cons p rest ih =>
    intro bs h
    obtain ⟨k, input⟩ := p
    by_cases he : input.original_shape.length = 0
    · simp [normalizeBatchLoop, he]
    · have hrest : ∃ q ∈ rest, q.2.original_shape = [] := by
        obtain ⟨q, hq, hqe⟩ := h
        rcases List.mem_cons.mp hq with h1 | h1
        · exact absurd (by rw [h1] at hqe; exact hqe)
            (fun hh => he (by rw [hh]; rfl))
        · exact ⟨q, h1, hqe⟩
      by_cases hbs : bs = 0
      · simp only [normalizeBatchLoop, if_neg he, if_pos hbs]
        rw [ih _ hrest]
      · by_cases hd : input.original_shape.headD 0 ≠ bs
        · simp only [normalizeBatchLoop, if_neg he, if_neg hbs, if_pos hd]
        · simp only [normalizeBatchLoop, if_neg he, if_neg hbs, if_neg hd]
          rw [ih _ hrest]

theorem normalizeBatchLoop_ok_batch :
    ∀ {l : List (String × RequestInput)} {bs bs' : Int}
      {l' : List (String × RequestInput)},
      normalizeBatchLoop bs l = .ok (bs', l') → bs ≠ 0 → bs' = bs := by
  intro l
  induction l with
  | nil =>
    intro bs bs' l' h _
    simp only [normalizeBatchLoop, Except.ok.injEq, Prod.mk.injEq] at h
    exact h.1.symm
  | cons p rest ih =>
    intro bs bs' l' h hbs
    obtain ⟨k, input⟩ := p
    by_cases he : input.original_shape.length = 0
    · simp only [normalizeBatchLoop, if_pos he] at h
      exact Except.noConfusion h
    · by_cases hd : input.original_shape.headD 0 ≠ bs
      · simp only [normalizeBatchLoop, if_neg he, if_neg hbs, if_pos hd] at h
        exact Except.noConfusion h
      · simp only [normalizeBatchLoop, if_neg he, if_neg hbs, if_neg hd] at h
        cases hrec : normalizeBatchLoop bs rest with
        | error e => rw [hrec] at h; exact Except.noConfusion h
        | ok q =>
          obtain ⟨b2, outs⟩ := q
          rw [hrec] at h
          simp only [Except.ok.injEq, Prod.mk.injEq] at h
          rw [← h.1]
          exact ih hrec hbs

theorem normalizeBatchLoop_ok_strip :
    ∀ {l : List (String × RequestInput)} {bs bs' : Int}
      {l' : List (String × RequestInput)},
      normalizeBatchLoop bs l = .ok (bs', l') → l' = stripBatchDim l := by
  intro l
  induction l with
  | nil =>
    intro bs bs' l' h
    simp only [normalizeBatchLoop, Except.ok.injEq, Prod.mk.injEq] at h
    rw [← h.2]
    rfl
  | cons p rest ih =>
    intro bs bs' l' h
    obtain ⟨k, input⟩ := p
    by_cases he : input.original_shape.length = 0
    · simp only [normalizeBatchLoop, if_pos he] at h
      exact Except.noConfusion h
    · by_cases hbs : bs = 0
      · simp only [normalizeBatchLoop, if_neg he, if_pos hbs] at h
        cases hrec : normalizeBatchLoop (input.original_shape.headD 0) rest with
        | error e => rw [hrec] at h; exact Except.noConfusion h
        | ok q =>
          obtain ⟨b2, outs⟩ := q
          rw [hrec] at h
          simp only [Except.ok.injEq, Prod.mk.injEq] at h
          rw [← h.2, stripBatchDim, List.map_cons]
          rw [ih hrec]
          rfl
      · by_cases hd : input.original_shape.headD 0 ≠ bs
        · simp only [normalizeBatchLoop, if_neg he, if_neg hbs, if_pos hd] at h
          exact Except.noConfusion h
        · simp only [normalizeBatchLoop, if_neg he, if_neg hbs, if_neg hd] at h
          cases hrec : normalizeBatchLoop bs rest with
          | error e => rw [hrec] at h; exact Except.noConfusion h
          | ok q =>
            obtain ⟨b2, outs⟩ := q
            rw [hrec] at h
            simp only [Except.ok.injEq, Prod.mk.injEq] at h
            rw [← h.2, stripBatchDim, List.map_cons]
            rw [ih hrec]
            rfl

theorem normalizeBatchLoop_error_of_mismatch :
    ∀ {l : List (String × RequestInput)} {bs : Int}, bs ≠ 0 →
      (∃ p ∈ l, p.2.original_shape.headD 0 ≠ bs) →
      normalizeBatchLoop bs l = .error .INVALID_ARG := by
  intro l
  induction l with
  | nil =>
    intro bs _ h
    obtain ⟨p, hp, -⟩ := h
    exact absurd hp (List.not_mem_nil p)
  | cons p rest ih =>
    intro bs hbs h
    obtain ⟨k, input⟩ := p
    by_cases he : input.original_shape.length = 0
    · simp [normalizeBatchLoop, he]
    · by_cases hd : input.original_shape.headD 0 ≠ bs
      · simp only [normalizeBatchLoop, if_neg he, if_neg hbs, if_pos hd]
      · have hrest : ∃ q ∈ rest, q.2.original_shape.headD 0 ≠ bs := by
          obtain ⟨q, hq, hqe⟩ := h
          rcases List.mem_cons.mp hq with h1 | h1
          · exact absurd (by rw [h1] at hqe; exact hqe) (by simpa using hd)
          · exact ⟨q, h1, hqe⟩
        simp only [normalizeBatchLoop, if_neg he, if_neg hbs, if_neg hd]
        rw [ih hbs hrest]

theorem normalizeBatchLoop_const :
    ∀ {c : Int}, c ≠ 0 → ∀ {l : List (String × RequestInput)},
      (∀ p ∈ l, p.2.original_shape ≠ [] ∧ p.2.original_shape.headD 0 = c) →
      normalizeBatchLoop c l = .ok (c, stripBatchDim l) := by
  intro c hc l
  induction l with
  | nil => intro _; rfl
  | cons p rest ih =>
    intro h
    obtain ⟨k, input⟩ := p
    obtain ⟨hne, hd⟩ := h (k, input) (List.mem_cons_self _ _)
    have he : ¬ input.original_shape.length = 0 := by
      simpa [List.length_eq_zero] using hne
    have hd' : ¬ input.original_shape.headD 0 ≠ c := fun hh => hh hd
    simp only [normalizeBatchLoop, if_neg he, if_neg hc, if_neg hd']
    rw [ih (fun q hq => h q (List.mem_cons_of_mem _ hq))]
    rfl

theorem normalizeBatchLoop_zero_const {c : Int}
    {l : List (String × RequestInput)} (hc : c ≠ 0) (hl : l ≠ [])
    (h : ∀ p ∈ l, p.2.original_shape ≠ [] ∧ p.2.original_shape.headD 0 = c) :
    normalizeBatchLoop 0 l = .ok (c, stripBatchDim l) := by
  cases l with
  | nil => exact absurd rfl hl
  | cons p rest =>
    obtain ⟨k, input⟩ := p
    obtain ⟨hne, hd⟩ := h (k, input) (List.mem_cons_self _ _)
    have he : ¬ input.original_shape.length = 0 := by
      simpa [List.length_eq_zero] using hne
    simp only [normalizeBatchLoop, if_neg he]
    rw [if_pos (by trivial), hd, normalizeBatchLoop_const hc
      (fun q hq => h q (List.mem_cons_of_mem _ hq))]
    rfl

theorem normalizeBatchLoop_zero_head {k0 : String} {i0 : RequestInput}
    {rest : List (String × RequestInput)} {bs' : Int}
    {l' : List (String × RequestInput)}
    (h : normalizeBatchLoop 0 ((k0, i0) :: rest) = .ok (bs', l'))
    (hd : i0.original_shape.headD 0 ≠ 0) : bs' = i0.original_shape.headD 0 := by
  simp only [normalizeBatchLoop] at h
  split at h
  · exact Except.noConfusion h
  · rw [if_pos (by trivial)] at h
    cases hrec : normalizeBatchLoop (i0.original_shape.headD 0) rest with
    | error e => rw [hrec] at h; exact Except.noConfusion h
    | ok q =>
      obtain ⟨b2, outs⟩ := q
      rw [hrec] at h
      simp only [Except.ok.injEq, Prod.mk.injEq] at h
      rw [← h.1]
      exact normalizeBatchLoop_ok_batch hrec hd

theorem normalizeBatchLoop_zero_mismatch {k0 : String} {i0 : RequestInput}
    {rest : List (String × RequestInput)}
    (hd : i0.original_shape.headD 0 ≠ 0)
    (h : ∃ p ∈ rest, p.2.original_shape.headD 0 ≠ i0.original_shape.headD 0) :
    normalizeBatchLoop 0 ((k0, i0) :: rest) = .error .INVALID_ARG := by
  have hne : ¬ i0.original_shape.length = 0 := by
    intro hh
    rw [List.length_eq_zero] at hh
    exact hd (by rw [hh]; rfl)
  simp only [normalizeBatchLoop, if_neg hne]
  rw [if_pos (by trivial), normalizeBatchLoop_error_of_mismatch hd h]

theorem normalizeV2InputsLoop_ok :
    ∀ {b : InferenceBackend} {l l' : List (String × RequestInput)},
      normalizeV2InputsLoop b l = .ok l' →
      List.Forall₂ (fun p q => p.1 = q.1 ∧ normalizeV2Input b p.1 p.2 = .ok q.2)
        l l' := by
  intro b l
  induction l with
  | nil =>
    intro l' h
    simp only [normalizeV2InputsLoop, Except.ok.injEq] at h
    rw [← h]
    exact List.Forall₂.nil
  | cons p rest ih =>
    intro l' h
    obtain ⟨k, input⟩ := p
    simp only [normalizeV2InputsLoop] at h
    cases hin : normalizeV2Input b k input with
    | error e => rw [hin] at h; exact Except.noConfusion h
    | ok input' =>
      rw [hin] at h
      cases hrec : normalizeV2InputsLoop b rest with
      | error e => rw [hrec] at h; exact Except.noConfusion h
      | ok outs =>
        rw [hrec] at h
        simp only [Except.ok.injEq] at h
        rw [← h]
        exact List.Forall₂.cons ⟨rfl, hin⟩ (ih hrec)

theorem forall₂_mem_right {α β : Type} {R : α → β → Prop} {l : List α}
    {l' : List β} (h : List.Forall₂ R l l') {q : β} (hq : q ∈ l') :
    ∃ p ∈ l, R p q := by
  induction h with
  | nil => exact absurd hq (List.not_mem_nil q)
  | cons ha htl ih =>
    rcases List.mem_cons.mp hq with h1 | h1
    · exact ⟨_, List.mem_cons_self _ _, h1 ▸ ha⟩
    · obtain ⟨p, hp, hr⟩ := ih h1
      exact ⟨p, List.mem_cons_of_mem _ hp, hr⟩

theorem normalizeV2Input_ok_shape {b : InferenceBackend} {k : String}
    {inp out : RequestInput} (h : normalizeV2Input b k inp = .ok out) :
    out.original_shape = inp.original_shape ∧
    ∀ ic, b.GetInput k = some ic →
      (ic.reshape = none → out.shape = inp.shape) ∧
      (∀ rs, ic.reshape = some rs →
        out.shape = applyReshape rs (captureWildcards ic.dims inp.shape)) := by
  simp only [normalizeV2Input] at h
  cases hg : b.GetInput k with
  | none =>
    simp only [hg] at h
    exact Except.noConfusion h
  | some ic =>
    simp only [hg] at h
    split at h
    · exact Except.noConfusion h
    · rw [Except.ok.injEq] at h
      subst h
      constructor
      · cases hr : ic.reshape <;> cases hd : inp.data <;> simp [hr, hd]
      · intro ic' hic'
        injection hic' with hic''
        subst hic''
        constructor
        · intro hnone
          cases hd : inp.data <;> simp [hnone, hd]
        · intro rs hrs
          cases hd : inp.data <;> simp [hrs, hd]

theorem normalizeV2Input_ok_getInput {b : InferenceBackend} {k : String}
    {inp out : RequestInput} (h : normalizeV2Input b k inp = .ok out) :
    ∃ ic, b.GetInput k = some ic := by
  simp only [normalizeV2Input] at h
  cases hg : b.GetInput k with
  | none =>
    simp only [hg] at h
    exact Except.noConfusion h
  | some ic => exact ⟨ic, rfl⟩

theorem normalizeBatchLoop_error_code :
    ∀ {l : List (String × RequestInput)} {bs : Int} {e : StatusCode},
      normalizeBatchLoop bs l = .error e → e = .INVALID_ARG := by
  intro l
  induction l with
  | nil =>
    intro bs e h
    exact Except.noConfusion h
  | cons p rest ih =>
    intro bs e h
    obtain ⟨k, input⟩ := p
    by_cases he : input.original_shape.length = 0
    · simp only [normalizeBatchLoop, if_pos he, Except.error.injEq] at h
      exact h.symm
    · by_cases hbs : bs = 0
      · simp only [normalizeBatchLoop, if_neg he, if_pos hbs] at h
        cases hrec : normalizeBatchLoop (input.original_shape.headD 0) rest with
        | error e2 =>
          rw [hrec] at h
          simp only [Except.error.injEq] at h
          rw [← h]
          exact ih hrec
        | ok q => rw [hrec] at h; exact Except.noConfusion h
      · by_cases hd : input.original_shape.headD 0 ≠ bs
        · simp only [normalizeBatchLoop, if_neg he, if_neg hbs, if_pos hd,
            Except.error.injEq] at h
          exact h.symm
        · simp only [normalizeBatchLoop, if_neg he, if_neg hbs, if_neg hd] at h
          cases hrec : normalizeBatchLoop bs rest with
          | error e2 =>
            rw [hrec] at h
            simp only [Except.error.injEq] at h
            rw [← h]
            exact ih hrec
          | ok q => rw [hrec] at h; exact Except.noConfusion h

theorem normalizeV2Input_error_code {b : InferenceBackend} {k : String}
    {inp : RequestInput} {e : StatusCode}
    (h : normalizeV2Input b k inp = .error e) : ¬ e = .SUCCESS := by
  simp only [normalizeV2Input] at h
  cases hg : b.GetInput k with
  | none =>
    simp only [hg, Except.error.injEq] at h
    rw [← h]
    simp
  | some ic =>
    simp only [hg] at h
    split at h
    · simp only [Except.error.injEq] at h
      rw [← h]
      simp
    · exact Except.noConfusion h

theorem normalizeV2InputsLoop_error_code :
    ∀ {b : InferenceBackend} {l : List (String × RequestInput)} {e : StatusCode},
      normalizeV2InputsLoop b l = .error e → ¬ e = .SUCCESS := by
  intro b l
  induction l with
  | nil =>
    intro e h
    exact Except.noConfusion h
  | cons p rest ih =>
    intro e h
    obtain ⟨k, input⟩ := p
    simp only [normalizeV2InputsLoop] at h
    cases hin : normalizeV2Input b k input with
    | error e2 =>
      rw [hin] at h
      simp only [Except.error.injEq] at h
      rw [← h]
      exact normalizeV2Input_error_code hin
    | ok input' =>
      rw [hin] at h
      cases hrec : normalizeV2InputsLoop b rest with
      | error e2 =>
        rw [hrec] at h
        simp only [Except.error.injEq] at h
        rw [← h]
        exact ih hrec
      | ok outs => rw [hrec] at h; exact Except.noConfusion h

theorem normalizeBatchLoop_zero_all :
    ∀ {l : List (String × RequestInput)},
      (∀ p ∈ l, p.2.original_shape ≠ [] ∧ p.2.original_shape.headD 0 = 0) →
      normalizeBatchLoop 0 l = .ok (0, stripBatchDim l) := by
  intro l
  induction l with
  | nil => intro _; rfl
  | cons p rest ih =>
    intro h
    obtain ⟨k, input⟩ := p
    obtain ⟨hne, hd⟩ := h (k, input) (List.mem_cons_self _ _)
    have he : ¬ input.original_shape.length = 0 := by
      simpa [List.length_eq_zero] using hne
    simp only [normalizeBatchLoop, if_neg he]
    rw [if_pos (by trivial), hd,
      ih (fun q hq => h q (List.mem_cons_of_mem _ hq))]
    rfl

theorem normalizeV2_outputs_fail {b : InferenceBackend} {req : InferenceRequest}
    (h : ¬ req.requested_outputs.all (fun pr => (b.GetOutput pr.1).isSome) = true) :
    NormalizeV2 b req = (.NOT_FOUND, priorityFix b req) := by
  simp only [NormalizeV2, priorityFix_requested_outputs]
  rw [if_pos h]

theorem normalizeV2_count_fail {b : InferenceBackend} {req : InferenceRequest}
    (houts : req.requested_outputs.all (fun pr => (b.GetOutput pr.1).isSome) = true)
    (h : ¬ req.original_inputs.length = b.config.input.length) :
    NormalizeV2 b req = (.INVALID_ARG, priorityFix b req) := by
  simp only [NormalizeV2, priorityFix_requested_outputs, priorityFix_original_inputs]
  rw [if_neg (by simp [houts]), if_pos h]

theorem normalizeV2_loop_error {b : InferenceBackend} {req : InferenceRequest}
    {e : StatusCode}
    (houts : req.requested_outputs.all (fun pr => (b.GetOutput pr.1).isSome) = true)
    (hcount : req.original_inputs.length = b.config.input.length)
    (hmax : ¬ b.config.max_batch_size = 0)
    (hloop : normalizeBatchLoop 0 req.original_inputs = .error e) :
    NormalizeV2 b req = (e, priorityFix b req) := by
  simp only [NormalizeV2, priorityFix_requested_outputs, priorityFix_original_inputs]
  rw [if_neg (by simp [houts]), if_neg (by simp [hcount]), if_neg hmax, hloop]

theorem normalizeV2_loop_ok {b : InferenceBackend} {req : InferenceRequest}
    {bs : Int} {inputs1 : List (String × RequestInput)}
    (houts : req.requested_outputs.all (fun pr => (b.GetOutput pr.1).isSome) = true)
    (hcount : req.original_inputs.length = b.config.input.length)
    (hmax : ¬ b.config.max_batch_size = 0)
    (hloop : normalizeBatchLoop 0 req.original_inputs = .ok (bs, inputs1)) :
    NormalizeV2 b req =
      (if bs < 1 then
        ((.INVALID_ARG : StatusCode),
          { priorityFix b req with batch_size := bs, original_inputs := inputs1 })
      else if bs ≠ 1 ∧ bs > b.config.max_batch_size then
        (.INVALID_ARG,
          { priorityFix b req with batch_size := bs, original_inputs := inputs1 })
      else
        match normalizeV2InputsLoop b inputs1 with
        | .error e =>
          (e,
            { priorityFix b req with batch_size := bs, original_inputs := inputs1 })
        | .ok inputs2 =>
          (.SUCCESS,
            { priorityFix b req with batch_size := bs, original_inputs := inputs2 })) := by
  simp only [NormalizeV2, priorityFix_requested_outputs, priorityFix_original_inputs]
  rw [if_neg (by simp [houts]), if_neg (by simp [hcount]), if_neg hmax, hloop]

theorem normalizeV2_nonbatching {b : InferenceBackend} {req : InferenceRequest}
    (houts : req.requested_outputs.all (fun pr => (b.GetOutput pr.1).isSome) = true)
    (hcount : req.original_inputs.length = b.config.input.length)
    (hmax : b.config.max_batch_size = 0) :
    NormalizeV2 b req =
      (match normalizeV2InputsLoop b (req.original_inputs.map
          (fun pr => (pr.1, { pr.2 with shape := pr.2.original_shape }))) with
      | .error e =>
        (e,
          { priorityFix b req with
              batch_size := 1,
              original_inputs := req.original_inputs.map
                (fun pr => (pr.1, { pr.2 with shape := pr.2.original_shape })) })
      | .ok inputs2 =>
        (.SUCCESS,
          { priorityFix b req with
              batch_size := 1,
              original_inputs := inputs2 })) := by
  simp only [NormalizeV2, priorityFix_requested_outputs, priorityFix_original_inputs]
  rw [if_neg (by simp [houts]), if_neg (by simp [hcount]), if_pos hmax]
  have h1 : ¬ ((1 : Int) < 1) := by norm_num
  have h2 : ¬ ((1 : Int) ≠ 1 ∧ (1 : Int) > b.config.max_batch_size) := by simp
  simp only [h1, h2, if_false, priorityFix_requested_outputs]

/-- C3 (amended): for a non-batching model (max_batch_size == 0), when
NormalizeV2 succeeds it sets batch_size to 1 and no leading dimension
is stripped: every input whose model configuration has no reshape keeps
its working shape equal to its original shape. -/
theorem prepare_v2_nonbatching (b : InferenceBackend) (req : InferenceRequest)
    (hmax : b.config.max_batch_size = 0)
    (hs : (NormalizeV2 b req).1 = .SUCCESS) :
    (NormalizeV2 b req).2.batch_size = 1 ∧
    ∀ p ∈ (NormalizeV2 b req).2.original_inputs,
      (∀ ic, b.GetInput p.1 = some ic → ic.reshape = none) →
      p.2.shape = p.2.original_shape := by
  by_cases houts : req.requested_outputs.all
    (fun pr => (b.GetOutput pr.1).isSome) = true
  case neg =>
    rw [normalizeV2_outputs_fail houts] at hs
    simp at hs
  case pos =>
  by_cases hcount : req.original_inputs.length = b.config.input.length
  case neg =>
    rw [normalizeV2_count_fail houts hcount] at hs
    simp at hs
  case pos =>
  rw [normalizeV2_nonbatching houts hcount hmax] at hs ⊢
  cases hloop : normalizeV2InputsLoop b (req.original_inputs.map
      (fun pr => (pr.1, { pr.2 with shape := pr.2.original_shape }))) with
  | error e =>
    rw [hloop] at hs
    exact absurd hs (normalizeV2InputsLoop_error_code hloop)
  | ok inputs2 =>
    rw [hloop] at hs
    refine ⟨rfl, ?_⟩
    intro p hp hnone
    have hforall := normalizeV2InputsLoop_ok hloop
    obtain ⟨q, hq, hR⟩ := forall₂_mem_right hforall hp
    obtain ⟨ic, hic⟩ := normalizeV2Input_ok_getInput hR.2
    have hshape := (normalizeV2Input_ok_shape hR.2).2 ic hic
    have hreshape : ic.reshape = none := hnone ic (by rw [← hR.1]; exact hic)
    have h1 : p.2.shape = q.2.shape := hshape.1 hreshape
    have h2 : p.2.original_shape = q.2.original_shape :=
      (normalizeV2Input_ok_shape hR.2).1
    obtain ⟨q0, hq0, hq0e⟩ := List.mem_map.mp hq
    have h3 : q.2.shape = q.2.original_shape := by
      rw [← hq0e]
    rw [h1, h3, h2]

theorem prepare_v2_nonbatching_witness :
    (NormalizeV2 witnessBackend witnessRequest).2.batch_size = 1 :=
  (prepare_v2_nonbatching witnessBackend witnessRequest (by decide) (by decide)).1

/-- The backend of the non-batching reshape scenario: dims with a
wildcard and a reshape that reorders the dimensions. -/
def reshapeBackend : InferenceBackend :=
  { config := { max_batch_size := 0,
                input := [{ name := "IN", data_type := .TYPE_INT32, dims := [-1, 3],
                            reshape := some [3, -1], is_shape_tensor := false }],
                output := [] },
    max_priority_level := 0, default_priority_level := 0 }

/-- The request of the non-batching reshape scenario, input shape 4 by 3. -/
def reshapeRequest : InferenceRequest :=
  { protocol_version := 2, batch_size := 0, priority := 0,
    original_inputs := [("IN",
      { name := "IN", datatype := .TYPE_INVALID, original_shape := [4, 3],
        shape := [], batch_byte_size := 0, data := none })],
    override_inputs := [], inputs := [], requested_outputs := [],
    needs_normalization := true }

/-- A request whose input shape does not match the witness model. -/
def mismatchRequest : InferenceRequest :=
  { protocol_version := 2, batch_size := 0, priority := 0,
    original_inputs := [("INPUT0",
      { name := "INPUT0", datatype := .TYPE_INVALID, original_shape := [3],
        shape := [], batch_byte_size := 0, data := none })],
    override_inputs := [], inputs := [], requested_outputs := [],
    needs_normalization := true }

theorem prepare_v2_nonbatching_cex :
    (NormalizeV2 witnessBackend mismatchRequest).1 = .INVALID_ARG ∧
    (NormalizeV2 reshapeBackend reshapeRequest).1 = .SUCCESS ∧
    ((NormalizeV2 reshapeBackend reshapeRequest).2.original_inputs.map
      (fun p => p.2.shape)) = [[3, 4]] ∧
    ((NormalizeV2 reshapeBackend reshapeRequest).2.original_inputs.map
      (fun p => p.2.original_shape)) = [[4, 3]] := by
  decide

/-- C1 (amended): for a batching model (max_batch_size > 0) with valid
requested outputs: an input with empty original shape makes NormalizeV2
return INVALID_ARG; when the first input's leading dimension is nonzero,
on success the request batch_size equals that leading dimension, and a
differing leading dimension on any other input yields INVALID_ARG (a
zero first leading dimension instead lets a later input set the batch
size); on success every input whose configuration has no reshape has
working shape equal to its original shape without the leading
dimension. -/
theorem prepare_v2_batch_strip (b : InferenceBackend) (req : InferenceRequest)
    (hmax : b.config.max_batch_size > 0)
    (houts : req.requested_outputs.all (fun pr => (b.GetOutput pr.1).isSome) = true) :
    ((∃ p ∈ req.original_inputs, p.2.original_shape = []) →
      (NormalizeV2 b req).1 = .INVALID_ARG) ∧
    (∀ k0 i0 rest, req.original_inputs = (k0, i0) :: rest →
      i0.original_shape.headD 0 ≠ 0 →
      ((NormalizeV2 b req).1 = .SUCCESS →
        (NormalizeV2 b req).2.batch_size = i0.original_shape.headD 0) ∧
      ((∃ p ∈ req.original_inputs,
          p.2.original_shape.headD 0 ≠ i0.original_shape.headD 0) →
        (NormalizeV2 b req).1 = .INVALID_ARG)) ∧
    ((NormalizeV2 b req).1 = .SUCCESS →
      ∀ p ∈ (NormalizeV2 b req).2.original_inputs,
        (∀ ic, b.GetInput p.1 = some ic → ic.reshape = none) →
        p.2.shape = p.2.original_shape.tail) := by
  have hmax' : ¬ b.config.max_batch_size = 0 := by omega
  refine ⟨?_, ?_, ?_⟩
  · intro hex
    by_cases hcount : req.original_inputs.length = b.config.input.length
    · rw [normalizeV2_loop_error houts hcount hmax'
        (normalizeBatchLoop_error_of_empty 0 hex)]
    · rw [normalizeV2_count_fail houts hcount]
  · intro k0 i0 rest hcons hd
    constructor
    · intro hs
      by_cases hcount : req.original_inputs.length = b.config.input.length
      case neg =>
        rw [normalizeV2_count_fail houts hcount] at hs
        simp at hs
      case pos =>
      cases hloop : normalizeBatchLoop 0 req.original_inputs with
      | error e =>
        rw [normalizeV2_loop_error houts hcount hmax' hloop] at hs
        rw [normalizeBatchLoop_error_code hloop] at hs
        simp at hs
      | ok q =>
        obtain ⟨bs, inputs1⟩ := q
        rw [normalizeV2_loop_ok houts hcount hmax' hloop] at hs ⊢
        by_cases h1 : bs < 1
        · rw [if_pos h1] at hs
          simp at hs
        · rw [if_neg h1] at hs ⊢
          by_cases h2 : bs ≠ 1 ∧ bs > b.config.max_batch_size
          · rw [if_pos h2] at hs
            simp at hs
          · rw [if_neg h2] at hs ⊢
            cases hloop2 : normalizeV2InputsLoop b inputs1 with
            | error e =>
              rw [hloop2] at hs
              exact absurd hs (normalizeV2InputsLoop_error_code hloop2)
            | ok inputs2 =>
              show bs = i0.original_shape.headD 0
              rw [hcons] at hloop
              exact normalizeBatchLoop_zero_head hloop hd
    · intro hex2
      by_cases hcount : req.original_inputs.length = b.config.input.length
      case neg => rw [normalizeV2_count_fail houts hcount]
      case pos =>
      obtain ⟨p, hp, hpne⟩ := hex2
      rw [hcons] at hp
      rcases List.mem_cons.mp hp with h1 | h1
      · exact absurd (by rw [h1]) hpne
      · have hloop : normalizeBatchLoop 0 req.original_inputs
            = .error .INVALID_ARG := by
          rw [hcons]
          exact normalizeBatchLoop_zero_mismatch hd ⟨p, h1, hpne⟩
        rw [normalizeV2_loop_error houts hcount hmax' hloop]
  · intro hs p hp hnone
    by_cases hcount : req.original_inputs.length = b.config.input.length
    case neg =>
      rw [normalizeV2_count_fail houts hcount] at hs
      simp at hs
    case pos =>
    cases hloop : normalizeBatchLoop 0 req.original_inputs with
    | error e =>
      rw [normalizeV2_loop_error houts hcount hmax' hloop] at hs
      rw [normalizeBatchLoop_error_code hloop] at hs
      simp at hs
    | ok q =>
      obtain ⟨bs, inputs1⟩ := q
      rw [normalizeV2_loop_ok houts hcount hmax' hloop] at hs hp
      by_cases h1 : bs < 1
      · rw [if_pos h1] at hs
        simp at hs
      · rw [if_neg h1] at hs hp
        by_cases h2 : bs ≠ 1 ∧ bs > b.config.max_batch_size
        · rw [if_pos h2] at hs
          simp at hs
        · rw [if_neg h2] at hs hp
          cases hloop2 : normalizeV2InputsLoop b inputs1 with
          | error e =>
            rw [hloop2] at hs
            exact absurd hs (normalizeV2InputsLoop_error_code hloop2)
          | ok inputs2 =>
            rw [hloop2] at hp
            have hp2 : p ∈ inputs2 := hp
            have hforall := normalizeV2InputsLoop_ok hloop2
            obtain ⟨q1, hq1, hR⟩ := forall₂_mem_right hforall hp2
            obtain ⟨ic, hic⟩ := normalizeV2Input_ok_getInput hR.2
            have hshape := (normalizeV2Input_ok_shape hR.2).2 ic hic
            have hreshape : ic.reshape = none := hnone ic (by rw [← hR.1]; exact hic)
            have h1s : p.2.shape = q1.2.shape := hshape.1 hreshape
            have h2s : p.2.original_shape = q1.2.original_shape :=
              (normalizeV2Input_ok_shape hR.2).1
            have hstrip : inputs1 = stripBatchDim req.original_inputs :=
              normalizeBatchLoop_ok_strip hloop
            rw [hstrip] at hq1
            obtain ⟨q0, hq0, hq0e⟩ := List.mem_map.mp hq1
            have h3s : q1.2.shape = q1.2.original_shape.tail := by
              rw [← hq0e]
            rw [h1s, h3s, h2s]

/-- A batching model with two inputs of dims 2 each. -/
def batchBackend : InferenceBackend :=
  { config := { max_batch_size := 4,
                input := [{ name := "A", data_type := .TYPE_INT32, dims := [2],
                            reshape := none, is_shape_tensor := false },
                          { name := "B", data_type := .TYPE_INT32, dims := [2],
                            reshape := none, is_shape_tensor := false }],
                output := [] },
    max_priority_level := 0, default_priority_level := 0 }

/-- First input of the batching witness request, leading dimension 3. -/
def batchInputA : RequestInput :=
  { name := "A", datatype := .TYPE_INVALID, original_shape := [3, 2],
    shape := [], batch_byte_size := 0, data := none }

/-- Second input of the batching witness request, leading dimension 3. -/
def batchInputB : RequestInput :=
  { name := "B", datatype := .TYPE_INVALID, original_shape := [3, 2],
    shape := [], batch_byte_size := 0, data := none }

/-- The batching witness request with common leading dimension 3. -/
def batchRequest : InferenceRequest :=
  { protocol_version := 2, batch_size := 0, priority := 0,
    original_inputs := [("A", batchInputA), ("B", batchInputB)],
    override_inputs := [], inputs := [], requested_outputs := [],
    needs_normalization := true }

theorem prepare_v2_batch_strip_witness :
    (NormalizeV2 batchBackend batchRequest).2.batch_size = 3 := by
  have h := prepare_v2_batch_strip batchBackend batchRequest (by decide) (by decide)
  exact (h.2.1 "A" batchInputA [("B", batchInputB)] rfl (by decide)).1 (by decide)

/-- A batching request whose first input has leading dimension 0 while
the second has leading dimension 3. -/
def zeroLeadRequest : InferenceRequest :=
  { protocol_version := 2, batch_size := 0, priority := 0,
    original_inputs := [("A",
      { name := "A", datatype := .TYPE_INVALID, original_shape := [0, 2],
        shape := [], batch_byte_size := 0, data := none }),
      ("B",
      { name := "B", datatype := .TYPE_INVALID, original_shape := [3, 2],
        shape := [], batch_byte_size := 0, data := none })],
    override_inputs := [], inputs := [], requested_outputs := [],
    needs_normalization := true }

/-- A batching model whose single input has a reshape. -/
def batchReshapeBackend : InferenceBackend :=
  { config := { max_batch_size := 4,
                input := [{ name := "IN", data_type := .TYPE_INT32, dims := [-1],
                            reshape := some [1, -1], is_shape_tensor := false }],
                output := [] },
    max_priority_level := 0, default_priority_level := 0 }

/-- A request for the batching reshape model, input shape 2 by 5. -/
def batchReshapeRequest : InferenceRequest :=
  { protocol_version := 2, batch_size := 0, priority := 0,
    original_inputs := [("IN",
      { name := "IN", datatype := .TYPE_INVALID, original_shape := [2, 5],
        shape := [], batch_byte_size := 0, data := none })],
    override_inputs := [], inputs := [], requested_outputs := [],
    needs_normalization := true }

theorem prepare_v2_batch_strip_cex :
    (NormalizeV2 batchBackend zeroLeadRequest).1 = .SUCCESS ∧
    (NormalizeV2 batchBackend zeroLeadRequest).2.batch_size = 3 ∧
    (zeroLeadRequest.original_inputs.map
      (fun p => p.2.original_shape.headD 0)) = [0, 3] ∧
    (NormalizeV2 batchReshapeBackend batchReshapeRequest).1 = .SUCCESS ∧
    ((NormalizeV2 batchReshapeBackend batchReshapeRequest).2.original_inputs.map
      (fun p => p.2.shape)) = [[1, 5]] ∧
    ((NormalizeV2 batchReshapeBackend batchReshapeRequest).2.original_inputs.map
      (fun p => p.2.original_shape.tail)) = [[5]] := by
  decide

/-- A request that already carries a requested output named O. -/
def dupOutputRequest : InferenceRequest :=
  { protocol_version := 2, batch_size := 0, priority := 0,
    original_inputs := [], override_inputs := [], inputs := [],
    requested_outputs := [("O", { name := "O", classification_cnt := 0 })],
    needs_normalization := false }

theorem add_override_input_duplicate_witness :
    (AddOverrideInput dupInputRequest staleOverrideInput).1 = .SUCCESS ∧
    AddOriginalInput dupInputRequest "X" [2] 0 = (.INVALID_ARG, dupInputRequest) ∧
    AddRequestedOutput dupOutputRequest "O" 5 = (.INVALID_ARG, dupOutputRequest) := by
  have h := add_override_input_duplicate
  refine ⟨(h.1 dupInputRequest staleOverrideInput).1, ?_, ?_⟩
  · exact h.2.1 dupInputRequest "X" [2] 0
      { name := "X", datatype := .TYPE_INVALID, original_shape := [1],
        shape := [], batch_byte_size := 0, data := none }
      (by unfold mapSorted; decide) (by decide)
  · exact h.2.2 dupOutputRequest "O" 5 { name := "O", classification_cnt := 0 }
      (by unfold mapSorted; decide) (by decide)

/-- A one-input model with max_batch_size m, INT32 input of dims 2. -/
def boundsBackend (m : Int) : InferenceBackend :=
  { config := { max_batch_size := m,
                input := [{ name := "INPUT", data_type := .TYPE_INT32, dims := [2],
                            reshape := none, is_shape_tensor := false }],
                output := [] },
    max_priority_level := 0, default_priority_level := 0 }

/-- A V1-profile request with request-level batch size bs. -/
def boundsV1Request (bs : Int) : InferenceRequest :=
  { protocol_version := 1, batch_size := bs, priority := 0,
    original_inputs := [("INPUT",
      { name := "INPUT", datatype := .TYPE_INVALID, original_shape := [2],
        shape := [], batch_byte_size := 0, data := none })],
    override_inputs := [], inputs := [], requested_outputs := [],
    needs_normalization := true }

/-- A V2-profile request whose single input carries leading dim lead. -/
def boundsV2Request (lead : Int) : InferenceRequest :=
  { protocol_version := 2, batch_size := 0, priority := 0,
    original_inputs := [("INPUT",
      { name := "INPUT", datatype := .TYPE_INVALID, original_shape := [lead, 2],
        shape := [], batch_byte_size := 0, data := none })],
    override_inputs := [], inputs := [], requested_outputs := [],
    needs_normalization := true }

/-- C4: normalization enforces the batch-size bounds. A requested V1
batch size of 0 and a derived V2 batch size of 0 yield INVALID_ARG; for
max_batch_size m with 1 <= m, a batch size of m is accepted by both
profiles while m + 1 is rejected by both; for max_batch_size 0 only
batch size 1 passes under V1 (V2 always derives batch size 1 there). -/
theorem normalize_batch_size_bounds :
    (∀ (b : InferenceBackend) (req : InferenceRequest),
      req.batch_size = 0 → (NormalizeV1 b req).1 = .INVALID_ARG) ∧
    (∀ (b : InferenceBackend) (req : InferenceRequest),
      b.config.max_batch_size > 0 →
      req.requested_outputs.all (fun pr => (b.GetOutput pr.1).isSome) = true →
      req.original_inputs.length = b.config.input.length →
      (∀ p ∈ req.original_inputs,
        p.2.original_shape ≠ [] ∧ p.2.original_shape.headD 0 = 0) →
      (NormalizeV2 b req).1 = .INVALID_ARG) ∧
    (∀ m : Int, 1 ≤ m →
      (NormalizeV1 (boundsBackend m) (boundsV1Request m)).1 = .SUCCESS ∧
      (NormalizeV2 (boundsBackend m) (boundsV2Request m)).1 = .SUCCESS ∧
      (NormalizeV2 (boundsBackend m) (boundsV2Request m)).2.batch_size = m) ∧
    (∀ (b : InferenceBackend) (req : InferenceRequest),
      1 ≤ b.config.max_batch_size →
      req.batch_size = b.config.max_batch_size + 1 →
      (NormalizeV1 b req).1 = .INVALID_ARG) ∧
    (∀ m : Int, 1 ≤ m →
      (NormalizeV2 (boundsBackend m) (boundsV2Request (m + 1))).1
        = .INVALID_ARG) ∧
    (∀ (b : InferenceBackend) (req : InferenceRequest),
      b.config.max_batch_size = 0 → req.batch_size ≠ 1 →
      (NormalizeV1 b req).1 = .INVALID_ARG) ∧
    (NormalizeV1 (boundsBackend 0) (boundsV1Request 1)).1 = .SUCCESS := by
  refine ⟨?_, ?_, ?_, ?_, ?_, ?_, by decide⟩
  · intro b req hbs
    simp only [NormalizeV1, priorityFix_batch_size]
    rw [if_pos (by rw [hbs]; norm_num)]
  · intro b req hmax houts hcount hz
    have hmax' : ¬ b.config.max_batch_size = 0 := by omega
    rw [normalizeV2_loop_ok houts hcount hmax' (normalizeBatchLoop_zero_all hz)]
    rw [if_pos (by norm_num)]
  · intro m hm
    have h1 : ¬ (m < 1) := by omega
    have h2 : ¬ (m ≠ 1 ∧ m > m) := by omega
    have h3 : (0 : Int) < m := by omega
    have h4 : ¬ (m = 0) := by omega
    refine ⟨?_, ?_, ?_⟩
    · simp [NormalizeV1, priorityFix, boundsBackend, boundsV1Request,
        normalizeV1InputsLoop, normalizeV1Input, InferenceBackend.GetInput,
        resolveV1Shape, CompareDimsWithWildcard, normalizeV1ByteSize,
        IsFixedSizeDataType, GetDataTypeByteSize, GetByteSize, h1, h2, h3]
    · simp [NormalizeV2, priorityFix, boundsBackend, boundsV2Request,
        normalizeBatchLoop, normalizeV2InputsLoop, normalizeV2Input,
        InferenceBackend.GetInput, CompareDimsWithWildcard, h1, h2, h4]
    · simp [NormalizeV2, priorityFix, boundsBackend, boundsV2Request,
        normalizeBatchLoop, normalizeV2InputsLoop, normalizeV2Input,
        InferenceBackend.GetInput, CompareDimsWithWildcard, h1, h2, h4]
  · intro b req hmax hbs
    simp only [NormalizeV1, priorityFix_batch_size]
    rw [if_neg (by rw [hbs]; omega), if_pos (by rw [hbs]; omega)]
  · intro m hm
    have h4 : ¬ (m = 0) := by omega
    have h5 : ¬ (m + 1 < 1) := by omega
    have h6 : (m + 1 ≠ 1 ∧ m + 1 > m) := by omega
    simp [NormalizeV2, priorityFix, boundsBackend, boundsV2Request,
      normalizeBatchLoop, h4, h5, h6]
  · intro b req hmax hbs1
    by_cases hlt : req.batch_size < 1
    · simp only [NormalizeV1, priorityFix_batch_size]
      rw [if_pos hlt]
    · simp only [NormalizeV1, priorityFix_batch_size]
      rw [if_neg hlt, if_pos (by rw [hmax]; omega)]

theorem normalize_batch_size_bounds_witness :
    (NormalizeV1 (boundsBackend 3) (boundsV1Request 0)).1 = .INVALID_ARG ∧
    (NormalizeV2 (boundsBackend 3) (boundsV2Request 0)).1 = .INVALID_ARG ∧
    (NormalizeV1 (boundsBackend 3) (boundsV1Request 3)).1 = .SUCCESS ∧
    (NormalizeV2 (boundsBackend 3) (boundsV2Request 3)).2.batch_size = 3 ∧
    (NormalizeV1 (boundsBackend 3) (boundsV1Request 4)).1 = .INVALID_ARG ∧
    (NormalizeV2 (boundsBackend 3) (boundsV2Request (3 + 1))).1 = .INVALID_ARG ∧
    (NormalizeV1 (boundsBackend 0) (boundsV1Request 2)).1 = .INVALID_ARG := by
  have h := normalize_batch_size_bounds
  refine ⟨h.1 _ _ rfl, ?_, (h.2.2.1 3 (by norm_num)).1,
    (h.2.2.1 3 (by norm_num)).2.2, ?_, h.2.2.2.2.1 3 (by norm_num), ?_⟩
  · exact h.2.1 (boundsBackend 3) (boundsV2Request 0) (by decide) (by decide)
      (by decide) (by decide)
  · exact h.2.2.2.1 (boundsBackend 3) (boundsV1Request 4) (by decide) (by decide)
  · exact h.2.2.2.2.2.1 (boundsBackend 0) (boundsV1Request 2) rfl (by decide)

theorem headD_eq_getD_zero {α : Type} (l : List α) (d : α) :
    l.headD d = l.getD 0 d := by
  cases l <;> rfl

theorem tail_getD {α : Type} (l : List α) (n : Nat) (d : α) :
    l.tail.getD n d = l.getD (n + 1) d := by
  cases l <;> simp [List.getD]

theorem countWildcards_cons (a : Int) (l : List Int) :
    countWildcards (a :: l) = (if a = -1 then 1 else 0) + countWildcards l := by
  by_cases ha : a = -1 <;> simp [countWildcards, List.filter_cons, ha, Nat.add_comm]

theorem captureWildcards_eq_spec :
    ∀ dims shape : List Int, captureWildcards dims shape = capturedSpec dims shape := by
  intro dims
  induction dims with
  | nil => intro shape; simp [captureWildcards, capturedSpec]
  | cons d ds ih =>
    intro shape
    cases shape with
    | nil => simp [captureWildcards, capturedSpec]
    | cons s ss =>
      by_cases hd : d = -1 <;>
        simp [captureWildcards, capturedSpec, List.zip_cons_cons,
          List.filterMap_cons, hd, ih ss]

theorem applyReshape_length :
    ∀ rs vals : List Int, (applyReshape rs vals).length = rs.length := by
  intro rs
  induction rs with
  | nil => intro vals; rfl
  | cons d ds ih =>
    intro vals
    by_cases hd : d = -1 <;> simp [applyReshape, hd, ih]

theorem applyReshape_getD :
    ∀ (rs vals : List Int) (i : Nat), i < rs.length →
      (applyReshape rs vals).getD i 0
        = if rs.getD i 0 = -1 then vals.getD (countWildcards (rs.take i)) 0
          else rs.getD i 0 := by
  intro rs
  induction rs with
  | nil =>
    intro vals i hi
    simp at hi
  | cons d ds ih =>
    intro vals i hi
    cases i with
    | zero =>
      by_cases hd : d = -1
      · simp only [applyReshape, if_pos hd, List.getD_cons_zero, List.take_zero]
        simp only [countWildcards, List.filter_nil, List.length_nil]
        exact headD_eq_getD_zero vals 0
      · simp only [applyReshape, if_neg hd, List.getD_cons_zero]
    | succ j =>
      have hj : j < ds.length := by simpa using hi
      by_cases hd : d = -1
      · simp only [applyReshape, if_pos hd, List.getD_cons_succ,
          List.take_succ_cons]
        rw [ih vals.tail j hj, countWildcards_cons, if_pos hd, tail_getD]
        by_cases hds : ds.getD j 0 = -1 <;> simp [hds, Nat.add_comm]
      · simp only [applyReshape, if_neg hd, List.getD_cons_succ,
          List.take_succ_cons]
        rw [ih vals j hj, countWildcards_cons, if_neg hd]
        simp

/-- The reshape scenario under the V1 normalization profile. -/
def reshapeRequestV1 : InferenceRequest :=
  { protocol_version := 1, batch_size := 1, priority := 0,
    original_inputs := [("IN",
      { name := "IN", datatype := .TYPE_INVALID, original_shape := [4, 3],
        shape := [], batch_byte_size := 0, data := none })],
    override_inputs := [], inputs := [], requested_outputs := [],
    needs_normalization := true }

/-- C2: the reshape rule captures, in index order, the working-shape
values at the wildcard positions of the configured dims and rewrites
the working shape to reshape.shape with each -1 replaced, in order, by
the next captured value; in particular for config dims -1,3 and
reshape shape 3,-1 a non-batching input of shape 4,3 has working shape
3,4 after Prepare, under both normalization profiles. -/
theorem prepare_reshape_wildcards :
    (∀ dims shape : List Int,
      captureWildcards dims shape = capturedSpec dims shape) ∧
    (∀ rs vals : List Int, (applyReshape rs vals).length = rs.length) ∧
    (∀ (rs vals : List Int) (i : Nat), i < rs.length →
      (applyReshape rs vals).getD i 0
        = if rs.getD i 0 = -1 then vals.getD (countWildcards (rs.take i)) 0
          else rs.getD i 0) ∧
    (∀ (b : InferenceBackend) (k : String) (inp out : RequestInput)
        (ic : ModelInput) (rs : List Int),
      b.GetInput k = some ic → ic.reshape = some rs →
      normalizeV2Input b k inp = .ok out →
      out.shape = applyReshape rs (captureWildcards ic.dims inp.shape)) ∧
    (PrepareForInference reshapeBackend reshapeRequest).1 = .SUCCESS ∧
    ((PrepareForInference reshapeBackend reshapeRequest).2.original_inputs.map
      (fun p => p.2.shape)) = [[3, 4]] ∧
    (PrepareForInference reshapeBackend reshapeRequestV1).1 = .SUCCESS ∧
    ((PrepareForInference reshapeBackend reshapeRequestV1).2.original_inputs.map
      (fun p => p.2.shape)) = [[3, 4]] := by
  refine ⟨captureWildcards_eq_spec, applyReshape_length, applyReshape_getD,
    ?_, by decide, by decide, by decide, by decide⟩
  intro b k inp out ic rs hg hr hok
  exact ((normalizeV2Input_ok_shape hok).2 ic hg).2 rs hr

theorem prepare_reshape_wildcards_witness :
    captureWildcards [-1, 3] [4, 3] = capturedSpec [-1, 3] [4, 3] ∧
    (applyReshape [3, -1] [4]).length = 2 ∧
    ((applyReshape [3, -1] [4]).getD 1 0
      = if ([3, -1] : List Int).getD 1 0 = -1 then
          ([4] : List Int).getD (countWildcards (([3, -1] : List Int).take 1)) 0
        else ([3, -1] : List Int).getD 1 0) ∧
    ({ name := "IN", datatype := DataType.TYPE_INT32, original_shape := [4, 3],
       shape := [3, 4], batch_byte_size := 0,
       data := some 0 } : RequestInput).shape
      = applyReshape [3, -1] (captureWildcards [-1, 3] [4, 3]) := by
  have h := prepare_reshape_wildcards
  refine ⟨h.1 [-1, 3] [4, 3], h.2.1 [3, -1] [4],
    h.2.2.1 [3, -1] [4] 1 (by norm_num), ?_⟩
  exact h.2.2.2.1 reshapeBackend "IN"
    { name := "IN", datatype := .TYPE_INVALID, original_shape := [4, 3],
      shape := [4, 3], batch_byte_size := 0, data := none }
    { name := "IN", datatype := .TYPE_INT32, original_shape := [4, 3],
      shape := [3, 4], batch_byte_size := 0, data := some 0 }
    { name := "IN", data_type := .TYPE_INT32, dims := [-1, 3],
      reshape := some [3, -1], is_shape_tensor := false }
    [3, -1] (by decide) rfl rfl
